import Mathlib

/-!
Verification of the layered configuration loaders in `config.py`.

The development shallowly embeds the module: JSON documents become the
inductive `JVal`, the `mergedeep.merge` deep merge becomes `jmerge`,
`hashlib.sha1` becomes an executable SHA-1 over byte lists, the filesystem
becomes an explicit `FS` record, and each `read_*_config` loader becomes a
function into `Except String Obj` (a `namedtuple(**d)` construction failure
is an error value).  Machine words are `Nat` with explicit `% 2^32`.
-/

/-! ### SHA-1 over byte lists (words are `Nat` taken mod `2^32`) -/

def w32 (n : Nat) : Nat := n % 4294967296

def rotl32 (s n : Nat) : Nat := w32 (Nat.shiftLeft n s) ||| Nat.shiftRight n (32 - s)

def beBytes : Nat → Nat → List Nat
  | 0, _ => []
  | k+1, n => beBytes k (n / 256) ++ [n % 256]

def padMsg (msg : List Nat) : List Nat :=
  let len := msg.length
  let zeros := (64 + 56 - (len + 1) % 64) % 64
  msg ++ 128 :: List.replicate zeros 0 ++ beBytes 8 (8 * len)

def bytesToWords : List Nat → List Nat
  | b0 :: b1 :: b2 :: b3 :: rest => (((b0 * 256 + b1) * 256 + b2) * 256 + b3) :: bytesToWords rest
  | _ => []

def expandFrom (w : List Nat) : Nat → List Nat
  | 0 => w
  | k+1 =>
    let i := w.length
    let x := rotl32 1 (Nat.xor (Nat.xor (w.getD (i-3) 0) (w.getD (i-8) 0))
                      (Nat.xor (w.getD (i-14) 0) (w.getD (i-16) 0)))
    expandFrom (w ++ [x]) k

def sha1F (t b c d : Nat) : Nat :=
  if t < 20 then Nat.lor (Nat.land b c) (Nat.land (Nat.xor b 4294967295) d)
  else if t < 40 then Nat.xor (Nat.xor b c) d
  else if t < 60 then Nat.lor (Nat.lor (Nat.land b c) (Nat.land b d)) (Nat.land c d)
  else Nat.xor (Nat.xor b c) d

def sha1K (t : Nat) : Nat :=
  if t < 20 then 1518500249
  else if t < 40 then 1859775393
  else if t < 60 then 2400959708
  else 3395469782

def sha1Rounds : List Nat → Nat → Nat × Nat × Nat × Nat × Nat → Nat × Nat × Nat × Nat × Nat
  | [], _, st => st
  | wt :: rest, t, (a, b, c, d, e) =>
    let temp := w32 (rotl32 5 a + sha1F t b c d + e + sha1K t + wt)
    sha1Rounds rest (t + 1) (temp, a, rotl32 30 b, c, d)

def sha1Block (ws : List Nat) (h : Nat × Nat × Nat × Nat × Nat) : Nat × Nat × Nat × Nat × Nat :=
  let sched := expandFrom ws 64
  match h with
  | (h0, h1, h2, h3, h4) =>
    match sha1Rounds sched 0 (h0, h1, h2, h3, h4) with
    | (a, b, c, d, e) => (w32 (h0 + a), w32 (h1 + b), w32 (h2 + c), w32 (h3 + d), w32 (h4 + e))

def sha1Blocks : List Nat → Nat × Nat × Nat × Nat × Nat → Nat × Nat × Nat × Nat × Nat
  | w0 :: w1 :: w2 :: w3 :: w4 :: w5 :: w6 :: w7 :: w8 :: w9 :: w10 :: w11 :: w12 :: w13 :: w14 :: w15 :: rest, h =>
    sha1Blocks rest (sha1Block [w0, w1, w2, w3, w4, w5, w6, w7, w8, w9, w10, w11, w12, w13, w14, w15] h)
  | _, h => h

def hexDigit (n : Nat) : Char := if n < 10 then Char.ofNat (48 + n) else Char.ofNat (87 + n)

def hexNibbles : Nat → Nat → List Char
  | 0, _ => []
  | k+1, n => hexNibbles k (n / 16) ++ [hexDigit (n % 16)]

def hex8 (n : Nat) : String := String.mk (hexNibbles 8 n)

/-- Lowercase hex SHA-1 digest of a byte list, mirroring
`hashlib.sha1(bytes).hexdigest()`. -/
def sha1Hex (msg : List Nat) : String :=
  match sha1Blocks (bytesToWords (padMsg msg)) (1732584193, 4023233417, 2562383102, 271733878, 3285377520) with
  | (h0, h1, h2, h3, h4) => hex8 h0 ++ hex8 h1 ++ hex8 h2 ++ hex8 h3 ++ hex8 h4

/-! ### String utilities mirroring the Python primitives used by the module -/

/-- UTF-8 encoding of one Unicode code point. -/
def encodeUtf8Char (n : Nat) : List Nat :=
  if n < 128 then [n]
  else if n < 2048 then [192 + n / 64, 128 + n % 64]
  else if n < 65536 then [224 + n / 4096, 128 + (n / 64) % 64, 128 + n % 64]
  else [240 + n / 262144, 128 + (n / 4096) % 64, 128 + (n / 64) % 64, 128 + n % 64]

/-- Python `s.encode("utf-8")` as a byte list. -/
def utf8Bytes (s : String) : List Nat :=
  s.data.foldr (fun c acc => encodeUtf8Char c.toNat ++ acc) []

def natDigits : Nat → Nat → List Char
  | 0, _ => []
  | _, 0 => []
  | k+1, n => natDigits k (n / 10) ++ [Char.ofNat (48 + n % 10)]

def natStr (n : Nat) : String := if n = 0 then "0" else String.mk (natDigits n n)

def intStr : Int → String
  | Int.ofNat n => natStr n
  | Int.negSucc n => "-" ++ natStr (n + 1)

/-- Python `s.replace("_", "-")` (single-character substitution). -/
def replaceUnderscore (s : String) : String :=
  String.mk (s.data.map (fun c => if c = '_' then '-' else c))

/-- Python `s.split("/")` on the character level. -/
def splitSlash : List Char → List (List Char)
  | [] => [[]]
  | c :: rest =>
    let r := splitSlash rest
    if c = '/' then [] :: r
    else
      match r with
      | [] => [[c]]
      | g :: gs => (c :: g) :: gs

/-- Python `s.split("/")[-1]`: the last `/`-separated segment of `s`. -/
def lastSegment (s : String) : String := String.mk ((splitSlash s.data).getLastD [])

/-- Python `sep.join(strs)`. -/
def joinStrs (sep : String) : List String → String
  | [] => ""
  | x :: xs => xs.foldl (fun acc y => acc ++ sep ++ y) x

/-! ### JSON-like values and the `mergedeep` deep merge -/

/-- A Python value as the module manipulates it: JSON scalars, arrays and
objects, plus `tup` for non-mapping record values (namedtuples) that the
deep merge replaces rather than merges. -/
inductive JVal where
  | null
  | bool (b : Bool)
  | num (n : Int)
  | str (s : String)
  | arr (items : List JVal)
  | obj (entries : List (String × JVal))
  | tup (entries : List (String × JVal))

abbrev Obj := List (String × JVal)

/-- First-occurrence lookup in an association list (Python dict access). -/
def olookup {α : Type} : List (String × α) → String → Option α
  | [], _ => none
  | (k', v') :: rest, k => if k' = k then some v' else olookup rest k

/-- Assignment `d[k] = v` on an association list: replace the first binding of `k`,
or append a fresh one. -/
def setKey {α : Type} : List (String × α) → String → α → List (String × α)
  | [], k, v => [(k, v)]
  | (k', v') :: rest, k, v => if k' = k then (k, v) :: rest else (k', v') :: setKey rest k v

mutual
/-- The `mergedeep.merge` of two values: two mappings merge recursively
key by key, anything else is replaced by the later source. -/
def jmerge (d s : JVal) : JVal :=
  match d, s with
  | .obj dd, .obj ss => .obj (jmergeList dd ss)
  | _, _ => s
termination_by structural s

/-- Merge the entries of the source object `s` into the destination `d`,
left to right. -/
def jmergeList (d : Obj) (s : Obj) : Obj :=
  match s with
  | [] => d
  | kv :: rest =>
    jmergeList (setKey d kv.1 (match olookup d kv.1 with
      | some old => jmerge old kv.2
      | none => kv.2)) rest
termination_by structural s
end

/-- Python truthiness of a value. -/
def jTruthy : JVal → Bool
  | .null => false
  | .bool b => b
  | .num n => n != 0
  | .str s => s != ""
  | .arr l => !l.isEmpty
  | .obj m => !m.isEmpty
  | .tup l => !l.isEmpty

/-- Python `d.get(k, dflt)`. -/
def jgetD (m : Obj) (k : String) (dflt : JVal) : JVal := (olookup m k).getD dflt

/-- Attribute access on an already-validated record (`cfg.field`); the
field is present by construction, `null` is a dead default. -/
def aget (m : Obj) (k : String) : JVal := (olookup m k).getD JVal.null

mutual
/-- Python `repr` of a value (used by `str` for non-string values). -/
def pyRepr (v : JVal) : String :=
  match v with
  | .null => "None"
  | .bool b => if b then "True" else "False"
  | .num n => intStr n
  | .str s => "\x27" ++ s ++ "\x27"
  | .arr l => "[" ++ pyReprItems l ++ "]"
  | .obj m => "\x7b" ++ pyReprEntries m ++ "\x7d"
  | .tup m => "(" ++ pyReprEntries m ++ ")"
termination_by structural v

def pyReprItems (l : List JVal) : String :=
  match l with
  | [] => ""
  | [x] => pyRepr x
  | x :: rest => pyRepr x ++ ", " ++ pyReprItems rest
termination_by structural l

def pyReprEntries (m : List (String × JVal)) : String :=
  match m with
  | [] => ""
  | [kv] => "\x27" ++ kv.1 ++ "\x27: " ++ pyRepr kv.2
  | kv :: rest => "\x27" ++ kv.1 ++ "\x27: " ++ pyRepr kv.2 ++ ", " ++ pyReprEntries rest
termination_by structural m
end

/-- Python `str(v)` as used by f-string interpolation. -/
def pyStr : JVal → String
  | .str s => s
  | v => pyRepr v

/-! ### Record construction (`namedtuple(**d)`) and field sets -/

/-- Construction `SomeConfig(**m)`: succeeds exactly when the keys of `m` are precisely
the declared fields — a missing field or an unexpected key raises
`TypeError`. -/
def mkRec (fields : List String) (m : Obj) : Except String Obj :=
  if (fields.all (fun f => (olookup m f).isSome) && m.all (fun kv => fields.contains kv.1)) = true
  then .ok m else .error "TypeError"

def config_dict (m : Obj) : Obj := m

/-! ### Record field sets, straight from the `namedtuple` declarations -/

def appFields : List String :=
  ["branch", "build_number", "commit_sha", "environment", "feature_engineering_jar",
   "fqn", "model", "pipeline", "project", "tenant", "debug"]

def tenantFields : List String :=
  ["app_config", "aws_account_id", "aws_region", "build_artifacts", "build_number",
   "commit_sha", "crawler_role_arn", "domain_id", "emr_cluster_id", "environment",
   "environments", "execution_role_arn", "fqn", "lambda_role_arn",
   "lambda_security_group_ids", "lambda_subnet_ids", "mllib_image_uri", "s3_bucket",
   "scheduler_role_arn", "studio_lifecycle_scripts", "studio_users", "tags", "tenant_name"]

def deploymentFields : List String :=
  tenantFields ++ ["branch", "branches", "feature_engineering_jar"]

def projectFields : List String := tenantFields ++ ["project_name"]

def modelFields : List String :=
  projectFields ++
  ["base_s3_path", "model_arn", "model_base_dir", "model_binaries_artifact",
   "model_binaries_dir", "model_binaries_location", "model_binary", "model_binary_sha",
   "model_code_artifact", "model_code_location", "model_code_sha", "model_description",
   "model_entrypoint", "model_group_arn", "model_image_uri", "model_image_file",
   "model_inference_config", "model_metadata", "model_name", "model_package_arn",
   "model_sha", "model_source_dir", "model_version"]

def pipelineFields : List String :=
  projectFields ++
  ["base_path", "base_s3_path", "feature_engineering_jar", "pipeline_module_location",
   "pipeline_module_name", "pipeline_name", "pipeline_name_prefix", "pipeline_schedule",
   "registered_model", "rule_name"]

def glueFields : List String :=
  projectFields ++
  ["base_s3_path", "crawler_name_prefix", "datasets", "force_create_flag", "table_name_prefix"]

def featuresFields : List String := modelFields ++ ["features"]

def imageFields : List String :=
  tenantFields ++ ["image_base_dir", "image_description", "image_name", "image_file", "image_uri"]

/-! ### The filesystem as data -/

/-- The state of one path as `json.loads(Path(p).read_text())` sees it. -/
inductive FileData where
  | missing
  | invalid
  | json (v : JVal)

/-- A directory entry as `os.listdir` + `os.path.isfile` classify it. -/
inductive FEntry where
  | file (content : List Nat)
  | subdir
deriving DecidableEq

/-- The filesystem: JSON files by path, directory listings by path
(entry name with its kind and bytes), raw binary files by path. -/
structure FS where
  files : String → FileData
  dirs : String → Option (List (String × FEntry))
  bins : String → Option (List Nat)

/-- Read `json.loads(Path(path).read_text())`: propagates a missing file or
malformed JSON as an error. -/
def read_config (fs : FS) (path : String) : Except String JVal :=
  match fs.files path with
  | .missing => .error "FileNotFoundError"
  | .invalid => .error "JSONDecodeError"
  | .json v => .ok v

/-! ### `read_app_config` -/

def fqnKeys : List String := ["tenant", "project", "model", "pipeline", "environment"]

/-- Join `"-".join(vals)` demands every element be a string (`TypeError` otherwise). -/
def strsOf : List JVal → Except String (List String)
  | [] => .ok []
  | JVal.str s :: rest =>
    match strsOf rest with
    | .ok l => .ok (s :: l)
    | .error e => .error e
  | _ :: _ => .error "TypeError"

/-- The computed mapping of `read_app_config`, in source order. -/
def appComputed (kwargs : Obj) (e : String) (strs : List String) : Obj :=
  [("debug", jgetD kwargs "debug" (JVal.bool false)),
   ("model", jgetD kwargs "model" JVal.null),
   ("project", jgetD kwargs "project" JVal.null),
   ("pipeline", jgetD kwargs "pipeline" JVal.null),
   ("branch", jgetD kwargs "branch" JVal.null),
   ("feature_engineering_jar", jgetD kwargs "feature_engineering_jar" JVal.null),
   ("environment", JVal.str (lastSegment e)),
   ("fqn", JVal.str (joinStrs "-" strs))]

/-- Builder `read_app_config(**kwargs)`: normalizes the environment to its last
path segment, derives `fqn` from the raw kwargs values, and builds the
`AppConfig` record from kwargs merged with the computed mapping. -/
def read_app_config (kwargs : Obj) : Except String Obj :=
  match olookup kwargs "environment" with
  | none => .error "KeyError"
  | some envRaw =>
    match envRaw with
    | .str e =>
      match strsOf (fqnKeys.foldr
          (fun k acc => if jTruthy (jgetD kwargs k JVal.null) then jgetD kwargs k JVal.null :: acc else acc) []) with
      | .error err => .error err
      | .ok strs =>
        mkRec appFields (jmergeList kwargs (appComputed kwargs e strs))
    | _ => .error "AttributeError"

/-! ### Loaders -/

/-- Python `d.get(key, dflt)` where the key is an arbitrary Python value: an
unhashable key raises, a hashable non-string key never matches a JSON
object key. -/
def pyDictGet (m : Obj) (key : JVal) (dflt : JVal) : Except String JVal :=
  match key with
  | .str k => .ok (jgetD m k dflt)
  | .obj _ => .error "TypeError"
  | .arr _ => .error "TypeError"
  | _ => .ok dflt

def tenantPath (a : Obj) : String := pyStr (aget a "tenant") ++ "/tenant.json"

def deploymentPath (a : Obj) : String := pyStr (aget a "tenant") ++ "/deployment.json"

def projectPath (a : Obj) : String :=
  pyStr (aget a "tenant") ++ "/" ++ pyStr (aget a "project") ++ "/project.json"

/-- Path tenant/project/model, the directory of the model-level spec files. -/
def modelBasePath (a : Obj) : String :=
  pyStr (aget a "tenant") ++ "/" ++ pyStr (aget a "project") ++ "/" ++ pyStr (aget a "model")

def modelJsonPath (a : Obj) : String := modelBasePath a ++ "/model.json"

def pipelineJsonPath (a : Obj) : String := modelBasePath a ++ "/pipeline.json"

def datasetJsonPath (a : Obj) : String := modelBasePath a ++ "/dataset.json"

def featuresJsonPath (a : Obj) : String := modelBasePath a ++ "/features.json"

def tenantDefaults : Obj :=
  [("emr_cluster_id", JVal.null),
   ("lambda_security_group_ids", JVal.null),
   ("lambda_subnet_ids", JVal.null),
   ("studio_lifecycle_scripts", JVal.null),
   ("studio_users", JVal.null)]

def tenantComputed (a : Obj) : Obj :=
  [("app_config", JVal.tup a),
   ("fqn", aget a "fqn"),
   ("tenant_name", aget a "tenant"),
   ("environment", aget a "environment"),
   ("build_number", aget a "build_number"),
   ("commit_sha", aget a "commit_sha"),
   ("build_artifacts", JVal.str "./artifacts"),
   ("tags", JVal.obj
     [("Environment", aget a "environment"),
      ("BuildNumber", aget a "build_number"),
      ("CommitSha", aget a "commit_sha")])]

/-- Extraction `tenant_spec.get("environments", \x7b\x7d).get(app_config.environment, \x7b\x7d)`.
A non-mapping override value makes the later merge raise; we surface that
error here since nothing can intervene between the two points. -/
def tenantEnvSpec (tdoc : Obj) (a : Obj) : Except String Obj :=
  match olookup tdoc "environments" with
  | none => .ok []
  | some (JVal.obj envs) =>
    match pyDictGet envs (aget a "environment") (JVal.obj []) with
    | .error e => .error e
    | .ok (JVal.obj espec) => .ok espec
    | .ok _ => .error "TypeError"
  | some _ => .error "AttributeError"

/-- Loader `read_tenant_config`: defaults, then `tenant.json`, then the computed
mapping, then the environment-specific overrides, merged in that order. -/
def read_tenant_config (fs : FS) (a : Obj) : Except String Obj :=
  match read_config fs (tenantPath a) with
  | .error e => .error e
  | .ok (JVal.obj tdoc) =>
    match tenantEnvSpec tdoc a with
    | .error e => .error e
    | .ok envSpec =>
      mkRec tenantFields
        (jmergeList (jmergeList (jmergeList tenantDefaults tdoc) (tenantComputed a)) envSpec)
  | .ok _ => .error "AttributeError"

/-- Loader `read_deployment_config`: tenant fields, then the computed branch/jar
mapping, then `deployment.json` merged last. -/
def read_deployment_config (fs : FS) (a : Obj) : Except String Obj :=
  match read_tenant_config fs a with
  | .error e => .error e
  | .ok tc =>
    match read_config fs (deploymentPath a) with
    | .error e => .error e
    | .ok (JVal.obj ddoc) =>
      let djar := JVal.str ("s3://" ++ pyStr (aget tc "s3_bucket") ++
        "/artifacts/feature-engineering-assembly-" ++ pyStr (aget a "commit_sha") ++ ".jar")
      let fej := if jTruthy (aget a "feature_engineering_jar") then aget a "feature_engineering_jar" else djar
      mkRec deploymentFields
        (jmergeList (jmergeList (config_dict tc)
          [("branch", aget a "branch"), ("feature_engineering_jar", fej)]) ddoc)
    | .ok _ => .error "TypeError"

def read_project_config (fs : FS) (a : Obj) : Except String Obj :=
  match read_tenant_config fs a with
  | .error e => .error e
  | .ok tc =>
    match read_config fs (projectPath a) with
    | .error e => .error e
    | .ok (JVal.obj pdoc) => mkRec projectFields (jmergeList (config_dict tc) pdoc)
    | .ok _ => .error "TypeError"

/-- The inner `model_code_hash`: list the directory, sort the names, and
feed the bytes of each regular file into one running SHA-1; a missing
directory hashes the empty input. -/
def model_code_hash (fs : FS) (dir : String) : String :=
  match fs.dirs dir with
  | none => sha1Hex (utf8Bytes "")
  | some entries =>
    sha1Hex ((List.insertionSort (fun x y : String => x ≤ y) (entries.map Prod.fst)).foldl
      (fun acc fn =>
        match olookup entries fn with
        | some (FEntry.file bs) => acc ++ bs
        | _ => acc) [])

/-- The inner `model_binary_hash`: SHA-1 of one binary file's bytes. -/
def model_binary_hash (fs : FS) (dir fname : String) : Except String String :=
  match fs.bins (dir ++ "/" ++ fname) with
  | some bs => .ok (sha1Hex bs)
  | none => .error "FileNotFoundError"

/-- Path of the model source directory, base path plus the declared or default segment. -/
def modelSrcDir (a mdoc : Obj) : String :=
  modelBasePath a ++ "/" ++ pyStr (jgetD mdoc "model_source_dir" (JVal.str "model"))

/-- Path of the model binaries directory, base path plus the declared or default segment. -/
def modelBinDir (a mdoc : Obj) : String :=
  modelBasePath a ++ "/" ++ pyStr (jgetD mdoc "model_binaries_dir" (JVal.str "model"))

/-- The binary-hash step: hash the declared binary when one is declared
(truthy), otherwise the SHA-1 of the empty input. -/
def modelBinShaOf (fs : FS) (a mdoc : Obj) : Except String String :=
  if jTruthy (jgetD mdoc "model_binary" JVal.null) then
    model_binary_hash fs (modelBinDir a mdoc) (pyStr (jgetD mdoc "model_binary" JVal.null))
  else .ok (sha1Hex (utf8Bytes ""))

def modelComputed (a pc mdoc : Obj) (codeSha binSha msha : String) : Obj :=
  [("model_arn", JVal.null),
   ("model_code_artifact", JVal.null),
   ("model_code_location", JVal.null),
   ("model_binaries_artifact", JVal.null),
   ("model_binaries_location", JVal.null),
   ("model_package_arn", JVal.null),
   ("model_group_arn", JVal.null),
   ("model_sha", JVal.str msha),
   ("model_entrypoint", jgetD mdoc "model_entrypoint" JVal.null),
   ("model_image_uri", jgetD mdoc "model_image_uri" JVal.null),
   ("model_image_file", jgetD mdoc "model_image_file" JVal.null),
   ("model_binary", jgetD mdoc "model_binary" JVal.null),
   ("model_binary_sha", JVal.str binSha),
   ("model_code_sha", JVal.str codeSha),
   ("model_base_dir", JVal.str (modelBasePath a)),
   ("model_source_dir", JVal.str (modelSrcDir a mdoc)),
   ("model_binaries_dir", JVal.str (modelBinDir a mdoc)),
   ("base_s3_path", JVal.str (replaceUnderscore
     ("s3://" ++ pyStr (aget pc "s3_bucket") ++ "/" ++ pyStr (aget a "tenant") ++ "-" ++
      pyStr (aget a "project") ++ "-" ++ pyStr (aget a "model") ++ "-" ++ pyStr (aget a "environment"))))]

def read_model_config (fs : FS) (a : Obj) : Except String Obj :=
  match read_project_config fs a with
  | .error e => .error e
  | .ok pc =>
    match read_config fs (modelJsonPath a) with
    | .error e => .error e
    | .ok (JVal.obj mdoc) =>
      match modelBinShaOf fs a mdoc with
      | .error e => .error e
      | .ok binSha =>
        match olookup mdoc "model_version" with
        | none => .error "KeyError"
        | some ver =>
          mkRec modelFields
            (jmergeList (jmergeList (config_dict pc) mdoc)
              (modelComputed a pc mdoc (model_code_hash fs (modelSrcDir a mdoc)) binSha
                (sha1Hex (utf8Bytes (binSha ++ model_code_hash fs (modelSrcDir a mdoc) ++ pyStr ver)))))
    | .ok _ => .error "AttributeError"

def pipelineNameOf (a : Obj) : String :=
  pyStr (aget a "tenant") ++ "-" ++ pyStr (aget a "project") ++ "-" ++ pyStr (aget a "model") ++
  "-" ++ pyStr (aget a "pipeline") ++ "-" ++ pyStr (aget a "environment")

def baseS3KeyOf (a : Obj) : String :=
  pyStr (aget a "tenant") ++ "-" ++ pyStr (aget a "project") ++ "-" ++ pyStr (aget a "model") ++
  "-" ++ pyStr (aget a "environment")

def pipelineComputed (a pc : Obj) (sched : JVal) : Obj :=
  [("base_path", JVal.str (modelBasePath a)),
   ("base_s3_path", JVal.str (replaceUnderscore
     ("s3://" ++ pyStr (aget pc "s3_bucket") ++ "/" ++ baseS3KeyOf a))),
   ("feature_engineering_jar", aget a "feature_engineering_jar"),
   ("pipeline_name_prefix", JVal.str (replaceUnderscore (pipelineNameOf a))),
   ("pipeline_name", JVal.str (replaceUnderscore (pipelineNameOf a))),
   ("rule_name", JVal.str (replaceUnderscore (pipelineNameOf a))),
   ("pipeline_module_location", JVal.str
     ("./" ++ modelBasePath a ++ "/pipelines/" ++ pyStr (aget a "pipeline") ++ ".py")),
   ("pipeline_module_name", JVal.str
     (pyStr (aget a "tenant") ++ "." ++ pyStr (aget a "project") ++ "." ++
      pyStr (aget a "model") ++ "." ++ pyStr (aget a "pipeline"))),
   ("pipeline_schedule", sched),
   ("registered_model", JVal.null)]

def read_pipeline_config (fs : FS) (a : Obj) : Except String Obj :=
  match read_project_config fs a with
  | .error e => .error e
  | .ok pc =>
    match read_config fs (pipelineJsonPath a) with
    | .error e => .error e
    | .ok (JVal.obj pdoc) =>
      match olookup pdoc "pipeline_schedule" with
      | none => .error "KeyError"
      | some (JVal.obj schedMap) =>
        match pyDictGet schedMap (aget a "pipeline") JVal.null with
        | .error e => .error e
        | .ok sched =>
          mkRec pipelineFields
            (jmergeList (jmergeList (config_dict pc) pdoc) (pipelineComputed a pc sched))
      | some _ => .error "AttributeError"
    | .ok _ => .error "TypeError"

/-- The dataset loader's base S3 key, templated from identity fields and
the model name declared in `model.json`. -/
def glueKeyOf (a : Obj) (mname : JVal) : String :=
  pyStr (aget a "tenant") ++ "-" ++ pyStr (aget a "project") ++ "-" ++ pyStr mname ++
  "-" ++ pyStr (aget a "environment")

def glueComputed (a pc : Obj) (mname : JVal) : Obj :=
  [("base_s3_path", JVal.str ("s3://" ++ pyStr (aget pc "s3_bucket") ++ "/" ++ glueKeyOf a mname)),
   ("table_name_prefix", JVal.str (glueKeyOf a mname)),
   ("crawler_name_prefix", JVal.str ("pi_risk_ml_" ++ glueKeyOf a mname)),
   ("force_create_flag", JVal.bool false)]

def read_dataset_config (fs : FS) (a : Obj) : Except String Obj :=
  match read_project_config fs a with
  | .error e => .error e
  | .ok pc =>
    match read_config fs (datasetJsonPath a) with
    | .error e => .error e
    | .ok (JVal.obj gdoc) =>
      match read_config fs (modelJsonPath a) with
      | .error e => .error e
      | .ok (JVal.obj mdoc) =>
        match olookup mdoc "model_name" with
        | none => .error "KeyError"
        | some mname =>
          mkRec glueFields
            (jmergeList (jmergeList (config_dict pc) gdoc) (glueComputed a pc mname))
      | .ok _ => .error "TypeError"
    | .ok _ => .error "TypeError"

def read_features_config (fs : FS) (a : Obj) : Except String Obj :=
  match read_model_config fs a with
  | .error e => .error e
  | .ok mc =>
    match read_config fs (featuresJsonPath a) with
    | .error e => .error e
    | .ok (JVal.obj fdoc) => mkRec featuresFields (jmergeList (config_dict mc) fdoc)
    | .ok _ => .error "TypeError"

def read_image_config (fs : FS) (a : Obj) : Except String Obj :=
  match read_tenant_config fs a with
  | .error e => .error e
  | .ok tc =>
    match read_config fs "mllib/docker.json" with
    | .error e => .error e
    | .ok (JVal.obj ddoc) => mkRec imageFields (jmergeList (config_dict tc) ddoc)
    | .ok _ => .error "TypeError"

/-! ### Lookup lemmas for the deep merge -/

/-- The value a merge assigns to a key present in the source. -/
def mergeVal (o : Option JVal) (v : JVal) : JVal :=
  match o with
  | some old => jmerge old v
  | none => v

/-! ### Concrete fixtures for witnesses and counterexamples -/

/-- An already-built `AppConfig` record (all eleven fields). -/
def app0 : Obj :=
  [("branch", JVal.str "main"), ("build_number", JVal.str "7"), ("commit_sha", JVal.str "abc123"),
   ("environment", JVal.str "prod"), ("feature_engineering_jar", JVal.null),
   ("fqn", JVal.str "t-prod"), ("model", JVal.str "m"), ("pipeline", JVal.str "p"),
   ("project", JVal.str "proj"), ("tenant", JVal.str "t"), ("debug", JVal.bool false)]

/-- A tenant document carrying exactly the required top-level fields, a
tenant-wide `s3_bucket` and an environment-specific override of it. -/
def tenantDoc0 : Obj :=
  [("aws_account_id", JVal.str "123"),
   ("aws_region", JVal.str "us-east-1"),
   ("crawler_role_arn", JVal.str "cr"),
   ("domain_id", JVal.str "dom"),
   ("environments", JVal.obj [("prod", JVal.obj [("s3_bucket", JVal.str "prod-bucket")])]),
   ("emr_cluster_id", JVal.str "j-123"),
   ("execution_role_arn", JVal.str "ex"),
   ("lambda_role_arn", JVal.str "lam"),
   ("mllib_image_uri", JVal.str "img"),
   ("s3_bucket", JVal.str "default"),
   ("scheduler_role_arn", JVal.str "sch")]

def fs0 : FS :=
  { files := fun p => if p = "t/tenant.json" then FileData.json (JVal.obj tenantDoc0) else FileData.missing,
    dirs := fun _ => none,
    bins := fun _ => none }

/-- A tenant document whose environment override replaces `tags` with a
plain string. -/
def tenantDoc1 : Obj :=
  [("aws_account_id", JVal.str "123"),
   ("aws_region", JVal.str "us-east-1"),
   ("crawler_role_arn", JVal.str "cr"),
   ("domain_id", JVal.str "dom"),
   ("environments", JVal.obj [("prod", JVal.obj [("tags", JVal.str "x")])]),
   ("execution_role_arn", JVal.str "ex"),
   ("lambda_role_arn", JVal.str "lam"),
   ("mllib_image_uri", JVal.str "img"),
   ("s3_bucket", JVal.str "default"),
   ("scheduler_role_arn", JVal.str "sch")]

def fs1 : FS :=
  { files := fun p => if p = "t/tenant.json" then FileData.json (JVal.obj tenantDoc1) else FileData.missing,
    dirs := fun _ => none,
    bins := fun _ => none }

/-- A tenant document whose environment override rebinds the computed
field `fqn`. -/
def tenantDoc2 : Obj :=
  [("aws_account_id", JVal.str "123"),
   ("aws_region", JVal.str "us-east-1"),
   ("crawler_role_arn", JVal.str "cr"),
   ("domain_id", JVal.str "dom"),
   ("environments", JVal.obj [("prod", JVal.obj [("fqn", JVal.str "OVERRIDE")])]),
   ("execution_role_arn", JVal.str "ex"),
   ("lambda_role_arn", JVal.str "lam"),
   ("mllib_image_uri", JVal.str "img"),
   ("s3_bucket", JVal.str "default"),
   ("scheduler_role_arn", JVal.str "sch")]

def fs2 : FS :=
  { files := fun p => if p = "t/tenant.json" then FileData.json (JVal.obj tenantDoc2) else FileData.missing,
    dirs := fun _ => none,
    bins := fun _ => none }

def depDoc0 : Obj :=
  [("branch", JVal.str "file-branch"), ("branches", JVal.arr [JVal.str "main"])]

def projDoc0 : Obj := [("project_name", JVal.str "proj")]

def modelDoc0 : Obj :=
  [("model_arn", JVal.str "from-file"),
   ("model_description", JVal.str "demo"),
   ("model_inference_config", JVal.obj []),
   ("model_metadata", JVal.obj []),
   ("model_name", JVal.str "m"),
   ("model_version", JVal.str "1")]

def pipeDoc0 : Obj :=
  [("pipeline_schedule", JVal.obj [("p", JVal.str "rate(1 day)")])]

def dsDoc0 : Obj := [("datasets", JVal.arr [])]

def featDoc0 : Obj := [("features", JVal.arr [])]

def dockerDoc0 : Obj :=
  [("image_base_dir", JVal.str "mllib"),
   ("image_description", JVal.str "img"),
   ("image_name", JVal.str "analytics"),
   ("image_file", JVal.str "Dockerfile"),
   ("image_uri", JVal.str "uri")]

/-- A complete fixture filesystem for the whole loader chain. -/
def fsAll : FS :=
  { files := fun p =>
      if p = "t/tenant.json" then FileData.json (JVal.obj tenantDoc0)
      else if p = "t/deployment.json" then FileData.json (JVal.obj depDoc0)
      else if p = "t/proj/project.json" then FileData.json (JVal.obj projDoc0)
      else if p = "t/proj/m/model.json" then FileData.json (JVal.obj modelDoc0)
      else if p = "t/proj/m/pipeline.json" then FileData.json (JVal.obj pipeDoc0)
      else if p = "t/proj/m/dataset.json" then FileData.json (JVal.obj dsDoc0)
      else if p = "t/proj/m/features.json" then FileData.json (JVal.obj featDoc0)
      else if p = "mllib/docker.json" then FileData.json (JVal.obj dockerDoc0)
      else FileData.missing,
    dirs := fun p =>
      if p = "t/proj/m/model" then some [("b.py", FEntry.file [10, 20]), ("sub", FEntry.subdir)]
      else none,
    bins := fun _ => none }

/-- Discriminator: did the loader raise? -/
def isErr {α : Type} : Except String α → Bool
  | .error _ => true
  | .ok _ => false

/-- A tenant document smuggling a key that is not a `TenantConfig` field. -/
def tenantDoc3 : Obj := tenantDoc0 ++ [("mystery_key", JVal.str "boom")]

def fs4 : FS :=
  { files := fun p => if p = "t/tenant.json" then FileData.json (JVal.obj tenantDoc3) else FileData.missing,
    dirs := fun _ => none,
    bins := fun _ => none }

/-- A tenant document lacking the required `s3_bucket` field. -/
def tenantDoc4 : Obj :=
  [("aws_account_id", JVal.str "123"),
   ("aws_region", JVal.str "us-east-1"),
   ("crawler_role_arn", JVal.str "cr"),
   ("domain_id", JVal.str "dom"),
   ("environments", JVal.obj []),
   ("execution_role_arn", JVal.str "ex"),
   ("lambda_role_arn", JVal.str "lam"),
   ("mllib_image_uri", JVal.str "img"),
   ("scheduler_role_arn", JVal.str "sch")]

def fs6 : FS :=
  { files := fun p => if p = "t/tenant.json" then FileData.json (JVal.obj tenantDoc4) else FileData.missing,
    dirs := fun _ => none,
    bins := fun _ => none }

/-- The empty filesystem: every read fails. -/
def fsEmpty : FS :=
  { files := fun _ => FileData.missing, dirs := fun _ => none, bins := fun _ => none }

/-- A filesystem whose `pipeline.json` parses but lacks `pipeline_schedule`. -/
def fs5 : FS :=
  { files := fun p => if p = "t/proj/m/pipeline.json" then FileData.json (JVal.obj []) else FileData.missing,
    dirs := fun _ => none,
    bins := fun _ => none }

/-- Raw identity kwargs whose environment is a slash-delimited path. -/
def kwargs0 : Obj :=
  [("tenant", JVal.str "t"), ("environment", JVal.str "refs/prod"),
   ("build_number", JVal.str "7"), ("commit_sha", JVal.str "abc123")]

/-- An `AppConfig` record whose tenant contains an underscore. -/
def appU : Obj :=
  [("branch", JVal.str "main"), ("build_number", JVal.str "7"), ("commit_sha", JVal.str "abc123"),
   ("environment", JVal.str "prod"), ("feature_engineering_jar", JVal.null),
   ("fqn", JVal.str "risk_team-prod"), ("model", JVal.str "m"), ("pipeline", JVal.str "p"),
   ("project", JVal.str "proj"), ("tenant", JVal.str "risk_team"), ("debug", JVal.bool false)]

def fsU : FS :=
  { files := fun p =>
      if p = "risk_team/tenant.json" then FileData.json (JVal.obj tenantDoc0)
      else if p = "risk_team/proj/project.json" then FileData.json (JVal.obj projDoc0)
      else if p = "risk_team/proj/m/model.json" then FileData.json (JVal.obj modelDoc0)
      else if p = "risk_team/proj/m/pipeline.json" then FileData.json (JVal.obj pipeDoc0)
      else if p = "risk_team/proj/m/dataset.json" then FileData.json (JVal.obj dsDoc0)
      else FileData.missing,
    dirs := fun _ => none,
    bins := fun _ => none }

/-! ### Claim C5: the model source hash -/

/-- The `os.path.isfile` test at a directory entry name. -/
def isFileAt (entries : List (String × FEntry)) (n : String) : Bool :=
  match olookup entries n with
  | some (FEntry.file _) => true
  | _ => false

/-- The bytes a name contributes to the running digest (none for
subdirectories). -/
def bytesAt (entries : List (String × FEntry)) (n : String) : List Nat :=
  match olookup entries n with
  | some (FEntry.file bs) => bs
  | _ => []

/-- The regular files of a listing, names with their bytes, in listing order. -/
def fileEntriesOf (entries : List (String × FEntry)) : List (String × List Nat) :=
  entries.foldr (fun kv acc =>
    match kv.2 with
    | FEntry.file bs => (kv.1, bs) :: acc
    | FEntry.subdir => acc) []

/-- The specification shape of the source hash: only the regular files
directly in the directory, their names sorted lexicographically, each
file's raw bytes concatenated in that order into one SHA-1. -/
def codeHashSpecOf (entries : List (String × FEntry)) : String :=
  sha1Hex (((List.insertionSort (fun x y : String => x ≤ y)
      ((fileEntriesOf entries).map Prod.fst)).map
      (fun n => (olookup (fileEntriesOf entries) n).getD [])).flatten)

/-- A filesystem listing the fixture model directory in reversed order. -/
def fsPerm : FS :=
  { files := fsAll.files,
    dirs := fun p =>
      if p = "t/proj/m/model" then some [("sub", FEntry.subdir), ("b.py", FEntry.file [10, 20])]
      else none,
    bins := fun _ => none }

/-! ### Lemmas and claim theorems -/

theorem olookup_setKey {α : Type} (d : List (String × α)) (k : String) (v : α) (k' : String) :
    olookup (setKey d k v) k' = if k = k' then some v else olookup d k' := by
  induction d with
  | nil =>
    by_cases h : k = k' <;> simp [setKey, olookup, h]
  | cons kv rest ih =>
    obtain ⟨k1, v1⟩ := kv
    by_cases h1 : k1 = k
    · subst h1
      by_cases h2 : k1 = k' <;> simp [setKey, olookup, h2]
    · by_cases h2 : k1 = k'
      · subst h2
        have hne : ¬ k = k1 := fun h => h1 h.symm
        simp [setKey, h1, olookup, hne]
      · simp [setKey, h1, olookup, h2, ih]

theorem olookup_mem {α : Type} {m : List (String × α)} {k : String} {v : α}
    (h : olookup m k = some v) : (k, v) ∈ m := by
  induction m with
  | nil => simp [olookup] at h
  | cons kv rest ih =>
    obtain ⟨k1, v1⟩ := kv
    by_cases h1 : k1 = k
    · subst h1
      simp [olookup] at h
      simp [h]
    · simp [olookup, h1] at h
      exact List.mem_cons_of_mem _ (ih h)

theorem olookup_eq_none {α : Type} {m : List (String × α)} {k : String} :
    olookup m k = none ↔ ∀ kv ∈ m, kv.1 ≠ k := by
  induction m with
  | nil => simp [olookup]
  | cons kv rest ih =>
    obtain ⟨k1, v1⟩ := kv
    by_cases h1 : k1 = k
    · subst h1
      simp [olookup]
    · simp [olookup, h1, ih]

theorem olookup_jmergeList_notmem {d s : Obj} {k : String}
    (h : ∀ kv ∈ s, kv.1 ≠ k) : olookup (jmergeList d s) k = olookup d k := by
  induction s generalizing d with
  | nil => simp [jmergeList]
  | cons kv rest ih =>
    rw [jmergeList]
    rw [ih (fun kv hm => h kv (List.mem_cons_of_mem _ hm))]
    rw [olookup_setKey]
    have : ¬ kv.1 = k := h kv (List.mem_cons_self _ _)
    simp [this]

theorem isSome_olookup_jmergeList_left {d s : Obj} {k : String}
    (h : (olookup d k).isSome) : (olookup (jmergeList d s) k).isSome := by
  induction s generalizing d with
  | nil => simpa [jmergeList] using h
  | cons kv rest ih =>
    rw [jmergeList]
    apply ih
    rw [olookup_setKey]
    by_cases hk : kv.1 = k <;> simp [hk, h]

theorem isSome_olookup_jmergeList_right {d s : Obj} {k : String}
    (h : (olookup s k).isSome) : (olookup (jmergeList d s) k).isSome := by
  induction s generalizing d with
  | nil => simp [olookup] at h
  | cons kv rest ih =>
    obtain ⟨k1, v1⟩ := kv
    rw [jmergeList]
    by_cases hk : k1 = k
    · subst hk
      apply isSome_olookup_jmergeList_left
      rw [olookup_setKey]
      simp
    · apply ih
      simpa [olookup, hk] using h

theorem olookup_jmergeList_nodup {s : Obj} {k : String} {v : JVal}
    (hnd : (s.map Prod.fst).Nodup) (hl : olookup s k = some v) (d : Obj) :
    olookup (jmergeList d s) k = some (mergeVal (olookup d k) v) := by
  induction s generalizing d with
  | nil => simp [olookup] at hl
  | cons kv rest ih =>
    obtain ⟨k1, v1⟩ := kv
    simp only [List.map, List.nodup_cons] at hnd
    by_cases hk : k1 = k
    · subst hk
      simp only [olookup, if_pos, Option.some.injEq] at hl
      subst hl
      rw [jmergeList]
      have hrest : ∀ kv ∈ rest, kv.1 ≠ k1 := by
        intro kv hm
        intro he
        exact hnd.1 (he ▸ List.mem_map_of_mem Prod.fst hm)
      rw [olookup_jmergeList_notmem hrest]
      rw [olookup_setKey]
      simp [mergeVal]
    · simp only [olookup, if_neg hk] at hl
      rw [jmergeList]
      rw [ih hnd.2 hl]
      rw [olookup_setKey]
      simp [hk]

theorem mkRec_ok_iff {fields : List String} {m cfg : Obj} :
    mkRec fields m = .ok cfg ↔
      cfg = m ∧ (∀ f ∈ fields, (olookup m f).isSome) ∧ (∀ kv ∈ m, kv.1 ∈ fields) := by
  unfold mkRec
  by_cases hc : (fields.all (fun f => (olookup m f).isSome) && m.all (fun kv => fields.contains kv.1)) = true
  · rw [if_pos hc]
    rw [Bool.and_eq_true, List.all_eq_true, List.all_eq_true] at hc
    constructor
    · intro h
      cases h
      refine ⟨rfl, fun f hf => hc.1 f hf, fun kv hm => ?_⟩
      have := hc.2 kv hm
      simpa [List.contains] using this
    · intro h
      rw [h.1]
  · rw [if_neg hc]
    constructor
    · intro h
      cases h
    · intro h
      exfalso
      apply hc
      rw [Bool.and_eq_true, List.all_eq_true, List.all_eq_true]
      refine ⟨fun f hf => h.2.1 f hf, fun kv hm => ?_⟩
      simpa [List.contains] using h.2.2 kv hm

theorem read_config_ok_iff {fs : FS} {p : String} {v : JVal} :
    read_config fs p = .ok v ↔ fs.files p = FileData.json v := by
  unfold read_config
  cases h : fs.files p <;> simp

theorem read_tenant_config_inv {fs : FS} {a cfg : Obj}
    (h : read_tenant_config fs a = .ok cfg) :
    ∃ tdoc envSpec,
      fs.files (tenantPath a) = FileData.json (JVal.obj tdoc) ∧
      tenantEnvSpec tdoc a = Except.ok envSpec ∧
      cfg = jmergeList (jmergeList (jmergeList tenantDefaults tdoc) (tenantComputed a)) envSpec ∧
      (∀ f ∈ tenantFields, (olookup cfg f).isSome) ∧ (∀ kv ∈ cfg, kv.1 ∈ tenantFields) := by
  unfold read_tenant_config at h
  split at h
  · cases h
  · next tdoc heq =>
    split at h
    · cases h
    · next envSpec heq2 =>
      rw [mkRec_ok_iff] at h
      rw [read_config_ok_iff] at heq
      exact ⟨tdoc, envSpec, heq, heq2, h.1, h.1 ▸ h.2.1, h.1 ▸ h.2.2⟩
  · cases h

theorem read_project_config_inv {fs : FS} {a cfg : Obj}
    (h : read_project_config fs a = .ok cfg) :
    ∃ tc pdoc,
      read_tenant_config fs a = .ok tc ∧
      fs.files (projectPath a) = FileData.json (JVal.obj pdoc) ∧
      cfg = jmergeList (config_dict tc) pdoc ∧
      (∀ f ∈ projectFields, (olookup cfg f).isSome) ∧ (∀ kv ∈ cfg, kv.1 ∈ projectFields) := by
  unfold read_project_config at h
  split at h
  · cases h
  · next tc htc =>
    split at h
    · cases h
    · next pdoc heq =>
      rw [mkRec_ok_iff] at h
      rw [read_config_ok_iff] at heq
      exact ⟨tc, pdoc, htc, heq, h.1, h.1 ▸ h.2.1, h.1 ▸ h.2.2⟩
    · cases h

theorem read_deployment_config_inv {fs : FS} {a cfg : Obj}
    (h : read_deployment_config fs a = .ok cfg) :
    ∃ tc ddoc,
      read_tenant_config fs a = .ok tc ∧
      fs.files (deploymentPath a) = FileData.json (JVal.obj ddoc) ∧
      cfg = jmergeList (jmergeList (config_dict tc)
        [("branch", aget a "branch"),
         ("feature_engineering_jar",
          if jTruthy (aget a "feature_engineering_jar") then aget a "feature_engineering_jar"
          else JVal.str ("s3://" ++ pyStr (aget tc "s3_bucket") ++
            "/artifacts/feature-engineering-assembly-" ++ pyStr (aget a "commit_sha") ++ ".jar"))]) ddoc ∧
      (∀ f ∈ deploymentFields, (olookup cfg f).isSome) ∧ (∀ kv ∈ cfg, kv.1 ∈ deploymentFields) := by
  unfold read_deployment_config at h
  split at h
  · cases h
  · next tc htc =>
    split at h
    · cases h
    · next ddoc heq =>
      rw [mkRec_ok_iff] at h
      rw [read_config_ok_iff] at heq
      exact ⟨tc, ddoc, htc, heq, h.1, h.1 ▸ h.2.1, h.1 ▸ h.2.2⟩
    · cases h

theorem read_model_config_inv {fs : FS} {a cfg : Obj}
    (h : read_model_config fs a = .ok cfg) :
    ∃ pc mdoc binSha ver,
      read_project_config fs a = .ok pc ∧
      fs.files (modelJsonPath a) = FileData.json (JVal.obj mdoc) ∧
      modelBinShaOf fs a mdoc = .ok binSha ∧
      olookup mdoc "model_version" = some ver ∧
      cfg = jmergeList (jmergeList (config_dict pc) mdoc)
        (modelComputed a pc mdoc (model_code_hash fs (modelSrcDir a mdoc)) binSha
          (sha1Hex (utf8Bytes (binSha ++ model_code_hash fs (modelSrcDir a mdoc) ++ pyStr ver)))) ∧
      (∀ f ∈ modelFields, (olookup cfg f).isSome) ∧ (∀ kv ∈ cfg, kv.1 ∈ modelFields) := by
  unfold read_model_config at h
  split at h
  · cases h
  · next pc hpc =>
    split at h
    · cases h
    · next mdoc heq =>
      split at h
      · cases h
      · next binSha hbin =>
        split at h
        · cases h
        · next ver hver =>
          rw [mkRec_ok_iff] at h
          rw [read_config_ok_iff] at heq
          exact ⟨pc, mdoc, binSha, ver, hpc, heq, hbin, hver, h.1, h.1 ▸ h.2.1, h.1 ▸ h.2.2⟩
    · cases h

theorem read_pipeline_config_inv {fs : FS} {a cfg : Obj}
    (h : read_pipeline_config fs a = .ok cfg) :
    ∃ pc pdoc schedMap sched,
      read_project_config fs a = .ok pc ∧
      fs.files (pipelineJsonPath a) = FileData.json (JVal.obj pdoc) ∧
      olookup pdoc "pipeline_schedule" = some (JVal.obj schedMap) ∧
      pyDictGet schedMap (aget a "pipeline") JVal.null = .ok sched ∧
      cfg = jmergeList (jmergeList (config_dict pc) pdoc) (pipelineComputed a pc sched) ∧
      (∀ f ∈ pipelineFields, (olookup cfg f).isSome) ∧ (∀ kv ∈ cfg, kv.1 ∈ pipelineFields) := by
  unfold read_pipeline_config at h
  split at h
  · cases h
  · next pc hpc =>
    split at h
    · cases h
    · next pdoc heq =>
      split at h
      · cases h
      · next schedMap hsm =>
        split at h
        · cases h
        · next sched hsched =>
          rw [mkRec_ok_iff] at h
          rw [read_config_ok_iff] at heq
          exact ⟨pc, pdoc, schedMap, sched, hpc, heq, hsm, hsched, h.1, h.1 ▸ h.2.1, h.1 ▸ h.2.2⟩
      · cases h
    · cases h

theorem read_dataset_config_inv {fs : FS} {a cfg : Obj}
    (h : read_dataset_config fs a = .ok cfg) :
    ∃ pc gdoc mdoc mname,
      read_project_config fs a = .ok pc ∧
      fs.files (datasetJsonPath a) = FileData.json (JVal.obj gdoc) ∧
      fs.files (modelJsonPath a) = FileData.json (JVal.obj mdoc) ∧
      olookup mdoc "model_name" = some mname ∧
      cfg = jmergeList (jmergeList (config_dict pc) gdoc) (glueComputed a pc mname) ∧
      (∀ f ∈ glueFields, (olookup cfg f).isSome) ∧ (∀ kv ∈ cfg, kv.1 ∈ glueFields) := by
  unfold read_dataset_config at h
  split at h
  · cases h
  · next pc hpc =>
    split at h
    · cases h
    · next gdoc hgd =>
      split at h
      · cases h
      · next mdoc hmd =>
        split at h
        · cases h
        · next mname hmn =>
          rw [mkRec_ok_iff] at h
          rw [read_config_ok_iff] at hgd
          rw [read_config_ok_iff] at hmd
          exact ⟨pc, gdoc, mdoc, mname, hpc, hgd, hmd, hmn, h.1, h.1 ▸ h.2.1, h.1 ▸ h.2.2⟩
      · cases h
    · cases h

theorem read_features_config_inv {fs : FS} {a cfg : Obj}
    (h : read_features_config fs a = .ok cfg) :
    ∃ mc fdoc,
      read_model_config fs a = .ok mc ∧
      fs.files (featuresJsonPath a) = FileData.json (JVal.obj fdoc) ∧
      cfg = jmergeList (config_dict mc) fdoc ∧
      (∀ f ∈ featuresFields, (olookup cfg f).isSome) ∧ (∀ kv ∈ cfg, kv.1 ∈ featuresFields) := by
  unfold read_features_config at h
  split at h
  · cases h
  · next mc hmc =>
    split at h
    · cases h
    · next fdoc heq =>
      rw [mkRec_ok_iff] at h
      rw [read_config_ok_iff] at heq
      exact ⟨mc, fdoc, hmc, heq, h.1, h.1 ▸ h.2.1, h.1 ▸ h.2.2⟩
    · cases h

theorem read_image_config_inv {fs : FS} {a cfg : Obj}
    (h : read_image_config fs a = .ok cfg) :
    ∃ tc ddoc,
      read_tenant_config fs a = .ok tc ∧
      fs.files "mllib/docker.json" = FileData.json (JVal.obj ddoc) ∧
      cfg = jmergeList (config_dict tc) ddoc ∧
      (∀ f ∈ imageFields, (olookup cfg f).isSome) ∧ (∀ kv ∈ cfg, kv.1 ∈ imageFields) := by
  unfold read_image_config at h
  split at h
  · cases h
  · next tc htc =>
    split at h
    · cases h
    · next ddoc heq =>
      rw [mkRec_ok_iff] at h
      rw [read_config_ok_iff] at heq
      exact ⟨tc, ddoc, htc, heq, h.1, h.1 ▸ h.2.1, h.1 ▸ h.2.2⟩
    · cases h

theorem mergeVal_of_not_obj {v : JVal} (hno : ∀ o, v ≠ JVal.obj o) (x : Option JVal) :
    mergeVal x v = v := by
  cases x with
  | none => rfl
  | some old =>
    cases old <;> cases v <;> first | rfl | exact absurd rfl (hno _)

/-- Merging a source whose every binding of `k` is a mapping preserves the
fact that `k` holds a mapping with the given keys present. -/
theorem jmergeList_preserves_objkeys {d s : Obj} {k : String} (keys : List String)
    (hd : ∃ t, olookup d k = some (JVal.obj t) ∧ ∀ key ∈ keys, (olookup t key).isSome)
    (hs : ∀ kv ∈ s, kv.1 = k → ∃ m, kv.2 = JVal.obj m) :
    ∃ t, olookup (jmergeList d s) k = some (JVal.obj t) ∧ ∀ key ∈ keys, (olookup t key).isSome := by
  induction s generalizing d with
  | nil => simpa [jmergeList] using hd
  | cons kv rest ih =>
    rw [jmergeList]
    apply ih
    · by_cases hk : kv.1 = k
      · obtain ⟨m, hm⟩ := hs kv (List.mem_cons_self _ _) hk
        obtain ⟨t, hlt, hkeys⟩ := hd
        refine ⟨jmergeList t m, ?_, ?_⟩
        · rw [olookup_setKey]
          rw [if_pos hk]
          rw [hk, hlt, hm]
          rfl
        · intro key hkey
          exact isSome_olookup_jmergeList_left (hkeys key hkey)
      · obtain ⟨t, hlt, hkeys⟩ := hd
        refine ⟨t, ?_, hkeys⟩
        rw [olookup_setKey, if_neg hk]
        exact hlt
    · exact fun kv hm => hs kv (List.mem_cons_of_mem _ hm)

/-- Shared workhorse: a field bound to a non-mapping value in the
environment-specific override section of `tenant.json` ends up verbatim in
the returned tenant record, whatever the earlier merge sources said. -/
theorem tenant_env_lookup {fs : FS} {a cfg tdoc envs espec : Obj} {en f : String} {v : JVal}
    (h : read_tenant_config fs a = .ok cfg)
    (ht : fs.files (tenantPath a) = FileData.json (JVal.obj tdoc))
    (henv : olookup tdoc "environments" = some (JVal.obj envs))
    (he : aget a "environment" = JVal.str en)
    (hesp : olookup envs en = some (JVal.obj espec))
    (hnd : (espec.map Prod.fst).Nodup)
    (hv : olookup espec f = some v)
    (hno : ∀ o, v ≠ JVal.obj o) :
    olookup cfg f = some v := by
  obtain ⟨tdoc', envSpec, ht', he', hcfg, _, _⟩ := read_tenant_config_inv h
  rw [ht] at ht'
  cases ht'
  unfold tenantEnvSpec at he'
  rw [henv, he] at he'
  simp only [pyDictGet, jgetD, hesp, Option.getD_some] at he'
  cases he'
  rw [hcfg]
  rw [olookup_jmergeList_nodup hnd hv]
  rw [mergeVal_of_not_obj hno]

/-- C6: a field of the current environment's entry under `environments`
takes precedence in the returned `TenantConfig` over the tenant-wide value
of the same field. -/
theorem tenant_env_override_precedence {fs : FS} {a cfg tdoc envs espec : Obj}
    {en f : String} {v : JVal}
    (h : read_tenant_config fs a = .ok cfg)
    (ht : fs.files (tenantPath a) = FileData.json (JVal.obj tdoc))
    (henv : olookup tdoc "environments" = some (JVal.obj envs))
    (he : aget a "environment" = JVal.str en)
    (hesp : olookup envs en = some (JVal.obj espec))
    (hnd : (espec.map Prod.fst).Nodup)
    (hv : olookup espec f = some v)
    (hno : ∀ o, v ≠ JVal.obj o) :
    olookup cfg f = some v :=
  tenant_env_lookup h ht henv he hesp hnd hv hno

/-- C6 witness: `tenant.json` with `s3_bucket = "default"` and
`environments.prod.s3_bucket = "prod-bucket"`, loaded with environment
`prod`, yields `s3_bucket = "prod-bucket"`. -/
theorem tenant_env_override_precedence_inst :
    ∃ cfg, read_tenant_config fs0 app0 = .ok cfg ∧
      olookup cfg "s3_bucket" = some (JVal.str "prod-bucket") := by
  refine ⟨_, rfl, ?_⟩
  exact @tenant_env_override_precedence fs0 app0 _ tenantDoc0
    [("prod", JVal.obj [("s3_bucket", JVal.str "prod-bucket")])]
    [("s3_bucket", JVal.str "prod-bucket")] "prod" "s3_bucket" (JVal.str "prod-bucket")
    rfl rfl rfl rfl rfl (by decide) rfl (fun o hx => JVal.noConfusion hx)

/-- C7 counterexample: with `environments.prod.tags = "x"` the tenant
loader succeeds and returns `tags` bound to the string `"x"`, which is not
a mapping, so it contains no keys at all. -/
theorem tenant_tags_not_mapping_cex :
    ∃ cfg, read_tenant_config fs1 app0 = .ok cfg ∧
      olookup cfg "tags" = some (JVal.str "x") ∧
      ∀ m : Obj, JVal.str "x" ≠ JVal.obj m :=
  ⟨_, rfl, rfl, fun _ hx => JVal.noConfusion hx⟩

/-- C7 amended: whenever the environment-specific override section does
not bind `tags` to a non-mapping value, the returned record's `tags` is a
mapping containing the keys Environment, BuildNumber and CommitSha. -/
theorem tenant_tags_keys {fs : FS} {a cfg : Obj}
    (h : read_tenant_config fs a = .ok cfg)
    (hsafe : ∀ tdoc envSpec, fs.files (tenantPath a) = FileData.json (JVal.obj tdoc) →
      tenantEnvSpec tdoc a = .ok envSpec →
      ∀ kv ∈ envSpec, kv.1 = "tags" → ∃ m, kv.2 = JVal.obj m) :
    ∃ tm, olookup cfg "tags" = some (JVal.obj tm) ∧
      (olookup tm "Environment").isSome ∧ (olookup tm "BuildNumber").isSome ∧
      (olookup tm "CommitSha").isSome := by
  obtain ⟨tdoc, envSpec, ht, he, hcfg, _, _⟩ := read_tenant_config_inv h
  have hnd : ((tenantComputed a).map Prod.fst).Nodup := by
    have hm : (tenantComputed a).map Prod.fst =
      ["app_config", "fqn", "tenant_name", "environment", "build_number",
       "commit_sha", "build_artifacts", "tags"] := rfl
    rw [hm]
    decide
  have hv : olookup (tenantComputed a) "tags" = some (JVal.obj
      [("Environment", aget a "environment"), ("BuildNumber", aget a "build_number"),
       ("CommitSha", aget a "commit_sha")]) := rfl
  have hstep1 : ∃ t, olookup (jmergeList (jmergeList tenantDefaults tdoc) (tenantComputed a)) "tags"
      = some (JVal.obj t) ∧ (olookup t "Environment").isSome ∧
      (olookup t "BuildNumber").isSome ∧ (olookup t "CommitSha").isSome := by
    rw [olookup_jmergeList_nodup hnd hv]
    cases ho : olookup (jmergeList tenantDefaults tdoc) "tags" with
    | none => exact ⟨_, rfl, rfl, rfl, rfl⟩
    | some old =>
      cases old with
      | obj t0 =>
        refine ⟨_, rfl, ?_, ?_, ?_⟩ <;>
          exact isSome_olookup_jmergeList_right rfl
      | null => exact ⟨_, rfl, rfl, rfl, rfl⟩
      | bool b => exact ⟨_, rfl, rfl, rfl, rfl⟩
      | num n => exact ⟨_, rfl, rfl, rfl, rfl⟩
      | str s => exact ⟨_, rfl, rfl, rfl, rfl⟩
      | arr l => exact ⟨_, rfl, rfl, rfl, rfl⟩
      | tup l => exact ⟨_, rfl, rfl, rfl, rfl⟩
  rw [hcfg]
  obtain ⟨t, hlt, h1, h2, h3⟩ := hstep1
  obtain ⟨t2, hlt2, hk⟩ := jmergeList_preserves_objkeys
    ["Environment", "BuildNumber", "CommitSha"]
    ⟨t, hlt, by
      intro key hkey
      simp only [List.mem_cons, List.not_mem_nil, or_false] at hkey
      rcases hkey with hkey | hkey | hkey <;> (subst hkey; assumption)⟩
    (hsafe tdoc envSpec ht he)
  have hk1 := hk "Environment" (by decide)
  have hk2 := hk "BuildNumber" (by decide)
  have hk3 := hk "CommitSha" (by decide)
  exact ⟨t2, hlt2, hk1, hk2, hk3⟩

/-- C7 amended witness: on the concrete fixture the override leaves `tags`
alone and the three keys are present. -/
theorem tenant_tags_keys_inst :
    ∃ tm, olookup ((read_tenant_config fs0 app0).toOption.getD []) "tags" = some (JVal.obj tm) ∧
      (olookup tm "Environment").isSome ∧ (olookup tm "BuildNumber").isSome ∧
      (olookup tm "CommitSha").isSome := by
  apply @tenant_tags_keys fs0 app0 ((read_tenant_config fs0 app0).toOption.getD []) rfl
  intro tdoc envSpec ht he
  have ht' : FileData.json (JVal.obj tenantDoc0) = FileData.json (JVal.obj tdoc) := ht
  injection ht' with ht''
  injection ht'' with ht3
  subst ht3
  have he' : Except.ok ([("s3_bucket", JVal.str "prod-bucket")] : Obj) = Except.ok envSpec := he
  injection he' with he''
  subst he''
  intro kv hkv heq
  simp only [List.mem_cons, List.not_mem_nil, or_false] at hkv
  subst hkv
  exact absurd heq (by decide)

/-- C1 counterexample: in the tenant loader the environment-specific
section of the loaded JSON document is merged after the computed mapping,
so the computed `fqn` value loses to the document. -/
theorem merge_order_cex :
    ∃ cfg, read_tenant_config fs2 app0 = .ok cfg ∧
      olookup (tenantComputed app0) "fqn" = some (JVal.str "t-prod") ∧
      olookup cfg "fqn" = some (JVal.str "OVERRIDE") ∧
      ("OVERRIDE" : String) ≠ "t-prod" :=
  ⟨_, rfl, rfl, rfl, by decide⟩

theorem modelComputed_keys (a pc mdoc : Obj) (c b m : String) :
    (modelComputed a pc mdoc c b m).map Prod.fst =
      ["model_arn", "model_code_artifact", "model_code_location", "model_binaries_artifact",
       "model_binaries_location", "model_package_arn", "model_group_arn", "model_sha",
       "model_entrypoint", "model_image_uri", "model_image_file", "model_binary",
       "model_binary_sha", "model_code_sha", "model_base_dir", "model_source_dir",
       "model_binaries_dir", "base_s3_path"] := rfl

theorem modelComputed_arn (a pc mdoc : Obj) (c b m : String) :
    olookup (modelComputed a pc mdoc c b m) "model_arn" = some JVal.null := rfl

theorem tenantComputed_no_emr (a : Obj) :
    olookup (tenantComputed a) "emr_cluster_id" = none := rfl

/-- C1 amended: file contents beat hardcoded defaults everywhere, and the
computed mapping is merged last in the project/model/pipeline/dataset
loaders; but the tenant loader merges environment-specific overrides after
the computed mapping, and the deployment loader merges `deployment.json`
after its computed mapping, so in those two loaders the document wins. -/
theorem merge_order_amended :
    (∀ fs : FS, ∀ a cfg tdoc : Obj, ∀ v : JVal,
       read_tenant_config fs a = .ok cfg →
       fs.files (tenantPath a) = FileData.json (JVal.obj tdoc) →
       (tdoc.map Prod.fst).Nodup →
       olookup tdoc "emr_cluster_id" = some v →
       (∀ o, v ≠ JVal.obj o) →
       (∀ envSpec, tenantEnvSpec tdoc a = .ok envSpec → olookup envSpec "emr_cluster_id" = none) →
       olookup cfg "emr_cluster_id" = some v) ∧
    (∀ fs : FS, ∀ a cfg : Obj,
       read_model_config fs a = .ok cfg →
       olookup cfg "model_arn" = some JVal.null) ∧
    (∀ fs : FS, ∀ a cfg tdoc envs espec : Obj, ∀ en fq : String,
       read_tenant_config fs a = .ok cfg →
       fs.files (tenantPath a) = FileData.json (JVal.obj tdoc) →
       olookup tdoc "environments" = some (JVal.obj envs) →
       aget a "environment" = JVal.str en →
       olookup envs en = some (JVal.obj espec) →
       (espec.map Prod.fst).Nodup →
       olookup espec "fqn" = some (JVal.str fq) →
       olookup cfg "fqn" = some (JVal.str fq)) ∧
    (∀ fs : FS, ∀ a cfg ddoc : Obj, ∀ v : JVal,
       read_deployment_config fs a = .ok cfg →
       fs.files (deploymentPath a) = FileData.json (JVal.obj ddoc) →
       (ddoc.map Prod.fst).Nodup →
       olookup ddoc "branch" = some v →
       (∀ o, v ≠ JVal.obj o) →
       olookup cfg "branch" = some v) := by
  refine ⟨?_, ?_, ?_, ?_⟩
  · intro fs a cfg tdoc v h ht hnd hv hno hes
    obtain ⟨tdoc', envSpec, ht', he', hcfg, _, _⟩ := read_tenant_config_inv h
    rw [ht] at ht'
    cases ht'
    rw [hcfg]
    have h1 : olookup (jmergeList tenantDefaults tdoc) "emr_cluster_id" = some v := by
      rw [olookup_jmergeList_nodup hnd hv]
      rw [mergeVal_of_not_obj hno]
    have h2 : olookup (jmergeList (jmergeList tenantDefaults tdoc) (tenantComputed a))
        "emr_cluster_id" = some v := by
      rw [olookup_jmergeList_notmem (olookup_eq_none.mp (tenantComputed_no_emr a))]
      exact h1
    rw [olookup_jmergeList_notmem (olookup_eq_none.mp (hes envSpec he'))]
    exact h2
  · intro fs a cfg h
    obtain ⟨pc, mdoc, binSha, ver, _, _, _, _, hcfg, _, _⟩ := read_model_config_inv h
    rw [hcfg]
    have hnd : ((modelComputed a pc mdoc (model_code_hash fs (modelSrcDir a mdoc)) binSha
        (sha1Hex (utf8Bytes (binSha ++ model_code_hash fs (modelSrcDir a mdoc) ++ pyStr ver)))).map
        Prod.fst).Nodup := by
      rw [modelComputed_keys]
      decide
    rw [olookup_jmergeList_nodup hnd (modelComputed_arn a pc mdoc _ _ _)]
    rw [mergeVal_of_not_obj (fun o hx => JVal.noConfusion hx)]
  · intro fs a cfg tdoc envs espec en fq h ht henv he hesp hnd hv
    exact tenant_env_lookup h ht henv he hesp hnd hv (fun o hx => JVal.noConfusion hx)
  · intro fs a cfg ddoc v h hd hnd hv hno
    obtain ⟨tc, ddoc', htc, hd', hcfg, _, _⟩ := read_deployment_config_inv h
    rw [hd] at hd'
    cases hd'
    rw [hcfg]
    rw [olookup_jmergeList_nodup hnd hv]
    rw [mergeVal_of_not_obj hno]

/-- C1 amended witness: the four precedence facts at concrete inputs —
a file value for `emr_cluster_id` beats the coded null default, the model
loader's computed `model_arn` beats the document's value, an environment
override beats the computed `fqn`, and `deployment.json` beats the
computed `branch`. -/
theorem merge_order_amended_inst :
    olookup ((read_tenant_config fs0 app0).toOption.getD []) "emr_cluster_id" = some (JVal.str "j-123") ∧
    olookup ((read_model_config fsAll app0).toOption.getD []) "model_arn" = some JVal.null ∧
    olookup ((read_tenant_config fs2 app0).toOption.getD []) "fqn" = some (JVal.str "OVERRIDE") ∧
    olookup ((read_deployment_config fsAll app0).toOption.getD []) "branch" = some (JVal.str "file-branch") := by
  refine ⟨?_, ?_, ?_, ?_⟩
  · refine merge_order_amended.1 fs0 app0 _ tenantDoc0 (JVal.str "j-123") rfl rfl (by decide) rfl
      (fun o hx => JVal.noConfusion hx) ?_
    intro envSpec he
    have he' : Except.ok ([("s3_bucket", JVal.str "prod-bucket")] : Obj) = Except.ok envSpec := he
    injection he' with he''
    subst he''
    rfl
  · exact merge_order_amended.2.1 fsAll app0 _ rfl
  · exact merge_order_amended.2.2.1 fs2 app0 _ tenantDoc2
      [("prod", JVal.obj [("fqn", JVal.str "OVERRIDE")])]
      [("fqn", JVal.str "OVERRIDE")] "prod" "OVERRIDE" rfl rfl rfl rfl rfl (by decide) rfl
  · exact merge_order_amended.2.2.2 fsAll app0 _ depDoc0 (JVal.str "file-branch") rfl rfl
      (by decide) rfl (fun o hx => JVal.noConfusion hx)

theorem tenantComputed_no_s3 (a : Obj) :
    olookup (tenantComputed a) "s3_bucket" = none := rfl

/-- C9: a loader succeeds exactly when the merged mapping's key set is the
declared field set — extra top-level document keys or missing fields make
record construction raise, and a successful record has exactly the
declared fields. -/
theorem record_fields_exact :
    (∀ fs : FS, ∀ a cfg : Obj, read_tenant_config fs a = .ok cfg →
       ∀ f, (olookup cfg f).isSome ↔ f ∈ tenantFields) ∧
    (∀ fs : FS, ∀ a cfg : Obj, read_model_config fs a = .ok cfg →
       ∀ f, (olookup cfg f).isSome ↔ f ∈ modelFields) ∧
    (∀ fs : FS, ∀ a tdoc : Obj, ∀ k : String,
       fs.files (tenantPath a) = FileData.json (JVal.obj tdoc) →
       (olookup tdoc k).isSome → k ∉ tenantFields →
       isErr (read_tenant_config fs a) = true) ∧
    (∀ fs : FS, ∀ a tdoc : Obj,
       fs.files (tenantPath a) = FileData.json (JVal.obj tdoc) →
       olookup tdoc "s3_bucket" = none →
       (∀ envSpec, tenantEnvSpec tdoc a = .ok envSpec → olookup envSpec "s3_bucket" = none) →
       isErr (read_tenant_config fs a) = true) := by
  refine ⟨?_, ?_, ?_, ?_⟩
  · intro fs a cfg h f
    obtain ⟨_, _, _, _, _, h1, h2⟩ := read_tenant_config_inv h
    constructor
    · intro hs
      obtain ⟨v, hv⟩ := Option.isSome_iff_exists.mp hs
      exact h2 (f, v) (olookup_mem hv)
    · exact h1 f
  · intro fs a cfg h f
    obtain ⟨_, _, _, _, _, _, _, _, _, h1, h2⟩ := read_model_config_inv h
    constructor
    · intro hs
      obtain ⟨v, hv⟩ := Option.isSome_iff_exists.mp hs
      exact h2 (f, v) (olookup_mem hv)
    · exact h1 f
  · intro fs a tdoc k ht hk hnf
    cases hr : read_tenant_config fs a with
    | error e => rfl
    | ok cfg =>
      exfalso
      obtain ⟨tdoc', envSpec, ht', _, hcfg, _, h2⟩ := read_tenant_config_inv hr
      rw [ht] at ht'
      cases ht'
      apply hnf
      have hx : (olookup cfg k).isSome := by
        rw [hcfg]
        apply isSome_olookup_jmergeList_left
        apply isSome_olookup_jmergeList_left
        exact isSome_olookup_jmergeList_right hk
      obtain ⟨v, hv⟩ := Option.isSome_iff_exists.mp hx
      exact h2 (k, v) (olookup_mem hv)
  · intro fs a tdoc ht hnone hes
    cases hr : read_tenant_config fs a with
    | error e => rfl
    | ok cfg =>
      exfalso
      obtain ⟨tdoc', envSpec, ht', he', hcfg, h1, _⟩ := read_tenant_config_inv hr
      rw [ht] at ht'
      cases ht'
      have hx : (olookup cfg "s3_bucket").isSome := h1 "s3_bucket" (by decide)
      have hy : olookup cfg "s3_bucket" = none := by
        rw [hcfg]
        rw [olookup_jmergeList_notmem (olookup_eq_none.mp (hes envSpec he'))]
        rw [olookup_jmergeList_notmem (olookup_eq_none.mp (tenantComputed_no_s3 a))]
        rw [olookup_jmergeList_notmem (olookup_eq_none.mp hnone)]
        rfl
      rw [hy] at hx
      cases hx

/-- C9 witness: field sets are exact on the fixtures, an unexpected
document key aborts, and a missing required field aborts. -/
theorem record_fields_exact_inst :
    ((olookup ((read_tenant_config fs0 app0).toOption.getD [("x", JVal.null)]) "s3_bucket").isSome
        ↔ "s3_bucket" ∈ tenantFields) ∧
    ((olookup ((read_model_config fsAll app0).toOption.getD [("x", JVal.null)]) "model_sha").isSome
        ↔ "model_sha" ∈ modelFields) ∧
    isErr (read_tenant_config fs4 app0) = true ∧
    isErr (read_tenant_config fs6 app0) = true := by
  refine ⟨?_, ?_, ?_, ?_⟩
  · exact record_fields_exact.1 fs0 app0 _ rfl "s3_bucket"
  · exact record_fields_exact.2.1 fsAll app0 _ rfl "model_sha"
  · exact record_fields_exact.2.2.1 fs4 app0 tenantDoc3 "mystery_key" rfl rfl (by decide)
  · refine record_fields_exact.2.2.2 fs6 app0 tenantDoc4 rfl rfl ?_
    intro envSpec he
    have he' : Except.ok ([] : Obj) = Except.ok envSpec := he
    injection he' with he''
    subst he''
    rfl

/-- C8: every loader propagates a missing or malformed JSON file as an
error, and the pipeline loader errors when `pipeline.json` lacks the
`pipeline_schedule` field; no branch recovers or substitutes a default
document. -/
theorem loader_error_propagation :
    (∀ fs : FS, ∀ a : Obj,
       fs.files (tenantPath a) = FileData.missing ∨ fs.files (tenantPath a) = FileData.invalid →
       isErr (read_tenant_config fs a) = true) ∧
    (∀ fs : FS, ∀ a : Obj,
       fs.files (deploymentPath a) = FileData.missing ∨ fs.files (deploymentPath a) = FileData.invalid →
       isErr (read_deployment_config fs a) = true) ∧
    (∀ fs : FS, ∀ a : Obj,
       fs.files (projectPath a) = FileData.missing ∨ fs.files (projectPath a) = FileData.invalid →
       isErr (read_project_config fs a) = true) ∧
    (∀ fs : FS, ∀ a : Obj,
       fs.files (modelJsonPath a) = FileData.missing ∨ fs.files (modelJsonPath a) = FileData.invalid →
       isErr (read_model_config fs a) = true) ∧
    (∀ fs : FS, ∀ a : Obj,
       fs.files (pipelineJsonPath a) = FileData.missing ∨ fs.files (pipelineJsonPath a) = FileData.invalid →
       isErr (read_pipeline_config fs a) = true) ∧
    (∀ fs : FS, ∀ a : Obj,
       fs.files (datasetJsonPath a) = FileData.missing ∨ fs.files (datasetJsonPath a) = FileData.invalid →
       isErr (read_dataset_config fs a) = true) ∧
    (∀ fs : FS, ∀ a : Obj,
       fs.files (featuresJsonPath a) = FileData.missing ∨ fs.files (featuresJsonPath a) = FileData.invalid →
       isErr (read_features_config fs a) = true) ∧
    (∀ fs : FS, ∀ a : Obj,
       fs.files "mllib/docker.json" = FileData.missing ∨ fs.files "mllib/docker.json" = FileData.invalid →
       isErr (read_image_config fs a) = true) ∧
    (∀ fs : FS, ∀ a pdoc : Obj,
       fs.files (pipelineJsonPath a) = FileData.json (JVal.obj pdoc) →
       olookup pdoc "pipeline_schedule" = none →
       isErr (read_pipeline_config fs a) = true) := by
  refine ⟨?_, ?_, ?_, ?_, ?_, ?_, ?_, ?_, ?_⟩
  · intro fs a h
    unfold read_tenant_config read_config
    rcases h with h | h <;> (rw [h]; rfl)
  · intro fs a h
    unfold read_deployment_config
    cases hr : read_tenant_config fs a with
    | error e => rfl
    | ok tc =>
      unfold read_config
      rcases h with h | h <;> (rw [h]; rfl)
  · intro fs a h
    unfold read_project_config
    cases hr : read_tenant_config fs a with
    | error e => rfl
    | ok tc =>
      unfold read_config
      rcases h with h | h <;> (rw [h]; rfl)
  · intro fs a h
    unfold read_model_config
    cases hr : read_project_config fs a with
    | error e => rfl
    | ok pc =>
      unfold read_config
      rcases h with h | h <;> (rw [h]; rfl)
  · intro fs a h
    unfold read_pipeline_config
    cases hr : read_project_config fs a with
    | error e => rfl
    | ok pc =>
      unfold read_config
      rcases h with h | h <;> (rw [h]; rfl)
  · intro fs a h
    unfold read_dataset_config
    cases hr : read_project_config fs a with
    | error e => rfl
    | ok pc =>
      unfold read_config
      rcases h with h | h <;> (rw [h]; rfl)
  · intro fs a h
    unfold read_features_config
    cases hr : read_model_config fs a with
    | error e => rfl
    | ok mc =>
      unfold read_config
      rcases h with h | h <;> (rw [h]; rfl)
  · intro fs a h
    unfold read_image_config
    cases hr : read_tenant_config fs a with
    | error e => rfl
    | ok tc =>
      unfold read_config
      rcases h with h | h <;> (rw [h]; rfl)
  · intro fs a pdoc hf hn
    cases hr : read_pipeline_config fs a with
    | error e => rfl
    | ok cfg =>
      exfalso
      obtain ⟨pc, pdoc', schedMap, sched, _, hf', hsm, _, _, _, _⟩ := read_pipeline_config_inv hr
      rw [hf] at hf'
      cases hf'
      rw [hn] at hsm
      cases hsm

/-- C8 witness: all nine error cases at concrete inputs. -/
theorem loader_error_propagation_inst :
    isErr (read_tenant_config fsEmpty app0) = true ∧
    isErr (read_deployment_config fsEmpty app0) = true ∧
    isErr (read_project_config fsEmpty app0) = true ∧
    isErr (read_model_config fsEmpty app0) = true ∧
    isErr (read_pipeline_config fsEmpty app0) = true ∧
    isErr (read_dataset_config fsEmpty app0) = true ∧
    isErr (read_features_config fsEmpty app0) = true ∧
    isErr (read_image_config fsEmpty app0) = true ∧
    isErr (read_pipeline_config fs5 app0) = true :=
  ⟨loader_error_propagation.1 fsEmpty app0 (Or.inl rfl),
   loader_error_propagation.2.1 fsEmpty app0 (Or.inl rfl),
   loader_error_propagation.2.2.1 fsEmpty app0 (Or.inl rfl),
   loader_error_propagation.2.2.2.1 fsEmpty app0 (Or.inl rfl),
   loader_error_propagation.2.2.2.2.1 fsEmpty app0 (Or.inl rfl),
   loader_error_propagation.2.2.2.2.2.1 fsEmpty app0 (Or.inl rfl),
   loader_error_propagation.2.2.2.2.2.2.1 fsEmpty app0 (Or.inl rfl),
   loader_error_propagation.2.2.2.2.2.2.2.1 fsEmpty app0 (Or.inl rfl),
   loader_error_propagation.2.2.2.2.2.2.2.2 fs5 app0 [] rfl rfl⟩

/-! ### Claim C2: the fqn join -/

theorem read_app_config_inv {kwargs cfg : Obj}
    (h : read_app_config kwargs = .ok cfg) :
    ∃ e strs, olookup kwargs "environment" = some (JVal.str e) ∧
      strsOf (fqnKeys.foldr
        (fun k acc => if jTruthy (jgetD kwargs k JVal.null) then jgetD kwargs k JVal.null :: acc else acc) [])
        = .ok strs ∧
      cfg = jmergeList kwargs (appComputed kwargs e strs) ∧
      (∀ f ∈ appFields, (olookup cfg f).isSome) ∧ (∀ kv ∈ cfg, kv.1 ∈ appFields) := by
  unfold read_app_config at h
  split at h
  · cases h
  · rename_i s heq
    split at h
    · rename_i e
      cases hs : strsOf (fqnKeys.foldr
          (fun k acc => if jTruthy (jgetD kwargs k JVal.null) then jgetD kwargs k JVal.null :: acc else acc) []) with
      | error err => rw [hs] at h; cases h
      | ok strs =>
        rw [hs] at h
        rw [mkRec_ok_iff] at h
        exact ⟨e, strs, heq, rfl, h.1, h.1 ▸ h.2.1, h.1 ▸ h.2.2⟩
    · cases h

theorem appComputed_keys (kwargs : Obj) (e : String) (strs : List String) :
    (appComputed kwargs e strs).map Prod.fst =
    ["debug", "model", "project", "pipeline", "branch", "feature_engineering_jar",
     "environment", "fqn"] := rfl

theorem appComputed_fqn (kwargs : Obj) (e : String) (strs : List String) :
    olookup (appComputed kwargs e strs) "fqn" = some (JVal.str (joinStrs "-" strs)) := rfl

theorem appComputed_env (kwargs : Obj) (e : String) (strs : List String) :
    olookup (appComputed kwargs e strs) "environment" = some (JVal.str (lastSegment e)) := rfl

/-- C2 counterexample: with raw environment `refs/prod` the record stores
environment `prod`, but `fqn` is joined from the raw value, giving
`t-refs/prod` rather than the claimed `t-prod`. -/
theorem fqn_raw_environment_cex :
    ∃ cfg, read_app_config kwargs0 = .ok cfg ∧
      olookup cfg "environment" = some (JVal.str "prod") ∧
      olookup cfg "fqn" = some (JVal.str "t-refs/prod") ∧
      ("t-refs/prod" : String) ≠ "t-prod" :=
  ⟨_, rfl, rfl, rfl, by decide⟩

/-- C2 amended: `fqn` is the `-`-join of the truthy raw kwargs values of
tenant, project, model, pipeline, environment in that fixed order — the
environment component is the raw input, not the normalized last segment,
while the `environment` field itself stores the last segment. -/
theorem fqn_join_amended {kwargs cfg : Obj} {e : String}
    (h : read_app_config kwargs = .ok cfg)
    (he : olookup kwargs "environment" = some (JVal.str e)) :
    ∃ strs, strsOf (fqnKeys.foldr
        (fun k acc => if jTruthy (jgetD kwargs k JVal.null) then jgetD kwargs k JVal.null :: acc else acc) [])
        = .ok strs ∧
      olookup cfg "fqn" = some (JVal.str (joinStrs "-" strs)) ∧
      olookup cfg "environment" = some (JVal.str (lastSegment e)) := by
  obtain ⟨e', strs, he', hstrs, hcfg, _, _⟩ := read_app_config_inv h
  rw [he] at he'
  injection he' with he''
  injection he'' with he3
  subst he3
  refine ⟨strs, hstrs, ?_, ?_⟩
  · rw [hcfg]
    rw [olookup_jmergeList_nodup (by rw [appComputed_keys]; decide) (appComputed_fqn kwargs e strs)]
    rw [mergeVal_of_not_obj (fun o hx => JVal.noConfusion hx)]
  · rw [hcfg]
    rw [olookup_jmergeList_nodup (by rw [appComputed_keys]; decide) (appComputed_env kwargs e strs)]
    rw [mergeVal_of_not_obj (fun o hx => JVal.noConfusion hx)]

/-- C2 amended witness: on the concrete kwargs the truthy values are the
raw tenant and raw environment, and the record stores the joined raw
values as `fqn` with the normalized environment. -/
theorem fqn_join_amended_inst :
    olookup ((read_app_config kwargs0).toOption.getD []) "fqn" = some (JVal.str "t-refs/prod") ∧
    olookup ((read_app_config kwargs0).toOption.getD []) "environment" = some (JVal.str "prod") := by
  obtain ⟨strs, h1, h2, h3⟩ :=
    @fqn_join_amended kwargs0 ((read_app_config kwargs0).toOption.getD []) "refs/prod" rfl rfl
  have h1' : (Except.ok ["t", "refs/prod"] : Except String (List String)) = Except.ok strs := h1
  injection h1' with h1''
  subst h1''
  exact ⟨h2, h3⟩

/-! ### Claim C10: dataset computed fields -/

theorem glueComputed_keys (a pc : Obj) (mname : JVal) :
    (glueComputed a pc mname).map Prod.fst =
    ["base_s3_path", "table_name_prefix", "crawler_name_prefix", "force_create_flag"] := rfl

/-- C10: a successful dataset load returns `force_create_flag = False` and
the computed S3/table/crawler templates, whatever `dataset.json` said for
those fields, because the computed mapping is merged last. -/
theorem dataset_computed_fields {fs : FS} {a cfg : Obj}
    (h : read_dataset_config fs a = .ok cfg) :
    ∃ pc mdoc mname,
      read_project_config fs a = .ok pc ∧
      fs.files (modelJsonPath a) = FileData.json (JVal.obj mdoc) ∧
      olookup mdoc "model_name" = some mname ∧
      olookup cfg "force_create_flag" = some (JVal.bool false) ∧
      olookup cfg "table_name_prefix" = some (JVal.str (glueKeyOf a mname)) ∧
      olookup cfg "crawler_name_prefix" = some (JVal.str ("pi_risk_ml_" ++ glueKeyOf a mname)) ∧
      olookup cfg "base_s3_path" =
        some (JVal.str ("s3://" ++ pyStr (aget pc "s3_bucket") ++ "/" ++ glueKeyOf a mname)) := by
  obtain ⟨pc, gdoc, mdoc, mname, hpc, hgd, hmd, hmn, hcfg, _, _⟩ := read_dataset_config_inv h
  have hnd : ((glueComputed a pc mname).map Prod.fst).Nodup := by
    rw [glueComputed_keys]
    decide
  refine ⟨pc, mdoc, mname, hpc, hmd, hmn, ?_, ?_, ?_, ?_⟩ <;> rw [hcfg]
  · rw [olookup_jmergeList_nodup hnd
      (show olookup (glueComputed a pc mname) "force_create_flag" = some (JVal.bool false) from rfl)]
    rw [mergeVal_of_not_obj (fun o hx => JVal.noConfusion hx)]
  · rw [olookup_jmergeList_nodup hnd
      (show olookup (glueComputed a pc mname) "table_name_prefix"
        = some (JVal.str (glueKeyOf a mname)) from rfl)]
    rw [mergeVal_of_not_obj (fun o hx => JVal.noConfusion hx)]
  · rw [olookup_jmergeList_nodup hnd
      (show olookup (glueComputed a pc mname) "crawler_name_prefix"
        = some (JVal.str ("pi_risk_ml_" ++ glueKeyOf a mname)) from rfl)]
    rw [mergeVal_of_not_obj (fun o hx => JVal.noConfusion hx)]
  · rw [olookup_jmergeList_nodup hnd
      (show olookup (glueComputed a pc mname) "base_s3_path"
        = some (JVal.str ("s3://" ++ pyStr (aget pc "s3_bucket") ++ "/" ++ glueKeyOf a mname)) from rfl)]
    rw [mergeVal_of_not_obj (fun o hx => JVal.noConfusion hx)]

/-- C10 witness: computed dataset fields at the concrete fixture. -/
theorem dataset_computed_fields_inst :
    olookup ((read_dataset_config fsAll app0).toOption.getD []) "force_create_flag"
      = some (JVal.bool false) ∧
    olookup ((read_dataset_config fsAll app0).toOption.getD []) "table_name_prefix"
      = some (JVal.str "t-proj-m-prod") ∧
    olookup ((read_dataset_config fsAll app0).toOption.getD []) "crawler_name_prefix"
      = some (JVal.str "pi_risk_ml_t-proj-m-prod") ∧
    olookup ((read_dataset_config fsAll app0).toOption.getD []) "base_s3_path"
      = some (JVal.str "s3://prod-bucket/t-proj-m-prod") := by
  obtain ⟨pc, mdoc, mname, hpc, hmd, hmn, h4, h5, h6, h7⟩ :=
    @dataset_computed_fields fsAll app0 ((read_dataset_config fsAll app0).toOption.getD []) rfl
  have hpc' : Except.ok ((read_project_config fsAll app0).toOption.getD []) = Except.ok pc := hpc
  injection hpc' with hpc''
  subst hpc''
  have hmd' : FileData.json (JVal.obj modelDoc0) = FileData.json (JVal.obj mdoc) := hmd
  injection hmd' with hmd''
  injection hmd'' with hmd3
  subst hmd3
  have hmn' : some (JVal.str "m") = some mname := hmn
  injection hmn' with hmn''
  subst hmn''
  exact ⟨h4, h5, h6, h7⟩

/-! ### Claim C4: underscore substitution in resource names -/

theorem replaceUnderscore_no_underscore (s : String) : '_' ∉ (replaceUnderscore s).data := by
  intro hm
  have hm' : '_' ∈ s.data.map (fun c => if c = '_' then '-' else c) := hm
  rw [List.mem_map] at hm'
  obtain ⟨c, _, hc⟩ := hm'
  by_cases h : c = '_'
  · rw [if_pos h] at hc
    exact absurd hc (by decide)
  · rw [if_neg h] at hc
    exact h hc

theorem pipelineComputed_keys (a pc : Obj) (sched : JVal) :
    (pipelineComputed a pc sched).map Prod.fst =
    ["base_path", "base_s3_path", "feature_engineering_jar", "pipeline_name_prefix",
     "pipeline_name", "rule_name", "pipeline_module_location", "pipeline_module_name",
     "pipeline_schedule", "registered_model"] := rfl

/-- C4 counterexample: the dataset loader applies no underscore
substitution — with tenant `risk_team` its `base_s3_path` and
`table_name_prefix` keep the underscore, and `crawler_name_prefix` even
starts with the underscored literal `pi_risk_ml_`. -/
theorem underscore_in_dataset_outputs_cex :
    ∃ cfg, read_dataset_config fsU appU = .ok cfg ∧
      olookup cfg "base_s3_path" = some (JVal.str "s3://prod-bucket/risk_team-proj-m-prod") ∧
      olookup cfg "table_name_prefix" = some (JVal.str "risk_team-proj-m-prod") ∧
      olookup cfg "crawler_name_prefix" = some (JVal.str "pi_risk_ml_risk_team-proj-m-prod") ∧
      '_' ∈ ("s3://prod-bucket/risk_team-proj-m-prod" : String).data ∧
      '_' ∈ ("pi_risk_ml_risk_team-proj-m-prod" : String).data :=
  ⟨_, rfl, rfl, rfl, rfl, by decide, by decide⟩

/-- C4 amended: the underscore→hyphen substitution is applied to the
pipeline loader's pipeline name, name prefix, rule name and S3 base path
and to the model loader's S3 base path, so those never contain an
underscore; the dataset loader's outputs are not substituted, and its
crawler name prefix always begins with the underscored `pi_risk_ml_`. -/
theorem underscore_substitution_amended :
    (∀ fs : FS, ∀ a cfg : Obj, read_pipeline_config fs a = .ok cfg →
       (∃ s, olookup cfg "pipeline_name" = some (JVal.str s) ∧ '_' ∉ s.data) ∧
       (∃ s, olookup cfg "pipeline_name_prefix" = some (JVal.str s) ∧ '_' ∉ s.data) ∧
       (∃ s, olookup cfg "rule_name" = some (JVal.str s) ∧ '_' ∉ s.data) ∧
       (∃ s, olookup cfg "base_s3_path" = some (JVal.str s) ∧ '_' ∉ s.data)) ∧
    (∀ fs : FS, ∀ a cfg : Obj, read_model_config fs a = .ok cfg →
       ∃ s, olookup cfg "base_s3_path" = some (JVal.str s) ∧ '_' ∉ s.data) ∧
    (∀ fs : FS, ∀ a cfg : Obj, read_dataset_config fs a = .ok cfg →
       ∃ s, olookup cfg "crawler_name_prefix" = some (JVal.str ("pi_risk_ml_" ++ s)) ∧
         '_' ∈ ("pi_risk_ml_" ++ s).data) := by
  refine ⟨?_, ?_, ?_⟩
  · intro fs a cfg h
    obtain ⟨pc, pdoc, schedMap, sched, _, _, _, _, hcfg, _, _⟩ := read_pipeline_config_inv h
    have hnd : ((pipelineComputed a pc sched).map Prod.fst).Nodup := by
      rw [pipelineComputed_keys]
      decide
    refine ⟨⟨replaceUnderscore (pipelineNameOf a), ?_, replaceUnderscore_no_underscore _⟩,
            ⟨replaceUnderscore (pipelineNameOf a), ?_, replaceUnderscore_no_underscore _⟩,
            ⟨replaceUnderscore (pipelineNameOf a), ?_, replaceUnderscore_no_underscore _⟩,
            ⟨replaceUnderscore ("s3://" ++ pyStr (aget pc "s3_bucket") ++ "/" ++ baseS3KeyOf a),
             ?_, replaceUnderscore_no_underscore _⟩⟩ <;> rw [hcfg]
    · rw [olookup_jmergeList_nodup hnd (show olookup (pipelineComputed a pc sched) "pipeline_name"
        = some (JVal.str (replaceUnderscore (pipelineNameOf a))) from rfl)]
      rw [mergeVal_of_not_obj (fun o hx => JVal.noConfusion hx)]
    · rw [olookup_jmergeList_nodup hnd (show olookup (pipelineComputed a pc sched) "pipeline_name_prefix"
        = some (JVal.str (replaceUnderscore (pipelineNameOf a))) from rfl)]
      rw [mergeVal_of_not_obj (fun o hx => JVal.noConfusion hx)]
    · rw [olookup_jmergeList_nodup hnd (show olookup (pipelineComputed a pc sched) "rule_name"
        = some (JVal.str (replaceUnderscore (pipelineNameOf a))) from rfl)]
      rw [mergeVal_of_not_obj (fun o hx => JVal.noConfusion hx)]
    · rw [olookup_jmergeList_nodup hnd (show olookup (pipelineComputed a pc sched) "base_s3_path"
        = some (JVal.str (replaceUnderscore ("s3://" ++ pyStr (aget pc "s3_bucket") ++ "/" ++ baseS3KeyOf a))) from rfl)]
      rw [mergeVal_of_not_obj (fun o hx => JVal.noConfusion hx)]
  · intro fs a cfg h
    obtain ⟨pc, mdoc, binSha, ver, _, _, _, _, hcfg, _, _⟩ := read_model_config_inv h
    refine ⟨replaceUnderscore ("s3://" ++ pyStr (aget pc "s3_bucket") ++ "/" ++ pyStr (aget a "tenant") ++ "-" ++
      pyStr (aget a "project") ++ "-" ++ pyStr (aget a "model") ++ "-" ++ pyStr (aget a "environment")),
      ?_, replaceUnderscore_no_underscore _⟩
    rw [hcfg]
    rw [olookup_jmergeList_nodup (by rw [modelComputed_keys]; decide)
      (show olookup (modelComputed a pc mdoc (model_code_hash fs (modelSrcDir a mdoc)) binSha
        (sha1Hex (utf8Bytes (binSha ++ model_code_hash fs (modelSrcDir a mdoc) ++ pyStr ver)))) "base_s3_path"
        = some (JVal.str (replaceUnderscore ("s3://" ++ pyStr (aget pc "s3_bucket") ++ "/" ++
          pyStr (aget a "tenant") ++ "-" ++ pyStr (aget a "project") ++ "-" ++ pyStr (aget a "model") ++
          "-" ++ pyStr (aget a "environment")))) from rfl)]
    rw [mergeVal_of_not_obj (fun o hx => JVal.noConfusion hx)]
  · intro fs a cfg h
    obtain ⟨pc, gdoc, mdoc, mname, _, _, _, _, hcfg, _, _⟩ := read_dataset_config_inv h
    refine ⟨glueKeyOf a mname, ?_, ?_⟩
    · rw [hcfg]
      rw [olookup_jmergeList_nodup (by rw [glueComputed_keys]; decide)
        (show olookup (glueComputed a pc mname) "crawler_name_prefix"
          = some (JVal.str ("pi_risk_ml_" ++ glueKeyOf a mname)) from rfl)]
      rw [mergeVal_of_not_obj (fun o hx => JVal.noConfusion hx)]
    · rw [String.data_append]
      exact List.mem_append_left _ (by decide)

/-- C4 amended witness: with tenant `risk_team` the pipeline name is
hyphenated, the model S3 base path is hyphenated, and the dataset crawler
prefix keeps its underscores. -/
theorem underscore_substitution_amended_inst :
    olookup ((read_pipeline_config fsU appU).toOption.getD []) "pipeline_name"
      = some (JVal.str "risk-team-proj-m-p-prod") ∧
    ('_' ∉ ("risk-team-proj-m-p-prod" : String).data) ∧
    olookup ((read_model_config fsAll app0).toOption.getD []) "base_s3_path"
      = some (JVal.str "s3://prod-bucket/t-proj-m-prod") ∧
    olookup ((read_dataset_config fsU appU).toOption.getD []) "crawler_name_prefix"
      = some (JVal.str "pi_risk_ml_risk_team-proj-m-prod") := by
  obtain ⟨⟨s1, hA, hA2⟩, _, _, _⟩ :=
    underscore_substitution_amended.1 fsU appU ((read_pipeline_config fsU appU).toOption.getD []) rfl
  obtain ⟨s2, hB, _⟩ :=
    underscore_substitution_amended.2.1 fsAll app0 ((read_model_config fsAll app0).toOption.getD []) rfl
  obtain ⟨s3, hC, _⟩ :=
    underscore_substitution_amended.2.2 fsU appU ((read_dataset_config fsU appU).toOption.getD []) rfl
  have h1 : some (JVal.str "risk-team-proj-m-p-prod") = some (JVal.str s1) := hA
  injection h1 with h1'
  injection h1' with h1''
  subst h1''
  have h2 : some (JVal.str "s3://prod-bucket/t-proj-m-prod") = some (JVal.str s2) := hB
  injection h2 with h2'
  injection h2' with h2''
  subst h2''
  have h3 : some (JVal.str "pi_risk_ml_risk_team-proj-m-prod")
      = some (JVal.str ("pi_risk_ml_" ++ s3)) := hC
  injection h3 with h3'
  injection h3' with h3''
  exact ⟨hA, hA2, hB, h3'' ▸ hC⟩

/-! ### Claim C3: the model fingerprint -/

theorem modelComputed_sha (a pc mdoc : Obj) (c b m : String) :
    olookup (modelComputed a pc mdoc c b m) "model_sha" = some (JVal.str m) := rfl

/-- Shared workhorse for the fingerprint equation. -/
theorem model_sha_lookup {fs : FS} {a cfg mdoc : Obj} {ver binSha : String}
    (h : read_model_config fs a = .ok cfg)
    (hf : fs.files (modelJsonPath a) = FileData.json (JVal.obj mdoc))
    (hver : olookup mdoc "model_version" = some (JVal.str ver))
    (hbin : modelBinShaOf fs a mdoc = .ok binSha) :
    olookup cfg "model_sha" = some (JVal.str
      (sha1Hex (utf8Bytes (binSha ++ model_code_hash fs (modelSrcDir a mdoc) ++ ver)))) := by
  obtain ⟨pc, mdoc', binSha', ver', _, hf', hbin', hver', hcfg, _, _⟩ := read_model_config_inv h
  rw [hf] at hf'
  cases hf'
  rw [hver] at hver'
  injection hver' with hv
  subst hv
  rw [hbin] at hbin'
  injection hbin' with hb
  subst hb
  rw [hcfg]
  rw [olookup_jmergeList_nodup (by rw [modelComputed_keys]; decide)
    (modelComputed_sha a pc mdoc _ _ _)]
  rw [mergeVal_of_not_obj (fun o hx => JVal.noConfusion hx)]
  rfl

/-- C3: a successful model load returns `model_sha` equal to the SHA-1 hex
digest of the UTF-8 bytes of binary-hash ++ source-hash ++ declared
version, and the value is a pure function of those three inputs. -/
theorem model_sha_fingerprint :
    (∀ fs : FS, ∀ a cfg mdoc : Obj, ∀ ver binSha : String,
       read_model_config fs a = .ok cfg →
       fs.files (modelJsonPath a) = FileData.json (JVal.obj mdoc) →
       olookup mdoc "model_version" = some (JVal.str ver) →
       modelBinShaOf fs a mdoc = .ok binSha →
       olookup cfg "model_sha" = some (JVal.str
         (sha1Hex (utf8Bytes (binSha ++ model_code_hash fs (modelSrcDir a mdoc) ++ ver))))) ∧
    (∀ fs fs' : FS, ∀ a a' cfg cfg' mdoc mdoc' : Obj, ∀ ver binSha : String,
       read_model_config fs a = .ok cfg →
       fs.files (modelJsonPath a) = FileData.json (JVal.obj mdoc) →
       olookup mdoc "model_version" = some (JVal.str ver) →
       modelBinShaOf fs a mdoc = .ok binSha →
       read_model_config fs' a' = .ok cfg' →
       fs'.files (modelJsonPath a') = FileData.json (JVal.obj mdoc') →
       olookup mdoc' "model_version" = some (JVal.str ver) →
       modelBinShaOf fs' a' mdoc' = .ok binSha →
       model_code_hash fs (modelSrcDir a mdoc) = model_code_hash fs' (modelSrcDir a' mdoc') →
       olookup cfg "model_sha" = olookup cfg' "model_sha") := by
  constructor
  · intro fs a cfg mdoc ver binSha h hf hver hbin
    exact model_sha_lookup h hf hver hbin
  · intro fs fs' a a' cfg cfg' mdoc mdoc' ver binSha h hf hver hbin h' hf' hver' hbin' hcode
    rw [model_sha_lookup h hf hver hbin, model_sha_lookup h' hf' hver' hbin', hcode]

/-- C3 witness: the fingerprint equation and its input-determinism at the
concrete fixture. -/
theorem model_sha_fingerprint_inst :
    olookup ((read_model_config fsAll app0).toOption.getD []) "model_sha" = some (JVal.str
      (sha1Hex (utf8Bytes (sha1Hex (utf8Bytes "") ++
        model_code_hash fsAll (modelSrcDir app0 modelDoc0) ++ "1")))) ∧
    olookup ((read_model_config fsAll app0).toOption.getD []) "model_sha"
      = olookup ((read_model_config fsAll app0).toOption.getD []) "model_sha" :=
  ⟨model_sha_fingerprint.1 fsAll app0 ((read_model_config fsAll app0).toOption.getD [])
      modelDoc0 "1" (sha1Hex (utf8Bytes "")) rfl rfl rfl rfl,
   model_sha_fingerprint.2 fsAll fsAll app0 app0
      ((read_model_config fsAll app0).toOption.getD [])
      ((read_model_config fsAll app0).toOption.getD [])
      modelDoc0 modelDoc0 "1" (sha1Hex (utf8Bytes ""))
      rfl rfl rfl rfl rfl rfl rfl rfl rfl⟩

theorem bytesAt_eq_nil {entries : List (String × FEntry)} {n : String}
    (h : isFileAt entries n = false) : bytesAt entries n = [] := by
  unfold isFileAt at h
  unfold bytesAt
  cases ho : olookup entries n with
  | none => rfl
  | some e =>
    rw [ho] at h
    cases e with
    | file bs => exact Bool.noConfusion (show true = false from h)
    | subdir => rfl

theorem fold_hash_flatten (entries : List (String × FEntry)) :
    ∀ (names : List String) (acc : List Nat),
    names.foldl (fun acc fn =>
      match olookup entries fn with
      | some (FEntry.file bs) => acc ++ bs
      | _ => acc) acc = acc ++ (names.map (bytesAt entries)).flatten := by
  intro names
  induction names with
  | nil => intro acc; simp
  | cons n rest ih =>
    intro acc
    rw [List.foldl_cons, List.map_cons, List.flatten_cons, ih]
    have hstep : (match olookup entries n with
      | some (FEntry.file bs) => acc ++ bs
      | _ => acc) = acc ++ bytesAt entries n := by
      unfold bytesAt
      cases ho : olookup entries n with
      | none => simp
      | some e =>
        cases e with
        | file bs => rfl
        | subdir => simp
    rw [hstep, List.append_assoc]

theorem flatten_map_filter (entries : List (String × FEntry)) :
    ∀ names : List String,
    (names.map (bytesAt entries)).flatten
      = ((names.filter (fun n => isFileAt entries n)).map (bytesAt entries)).flatten := by
  intro names
  induction names with
  | nil => rfl
  | cons n rest ih =>
    cases hf : isFileAt entries n with
    | true =>
      rw [List.map_cons, List.flatten_cons, List.filter_cons_of_pos hf, List.map_cons,
        List.flatten_cons, ih]
    | false =>
      rw [List.map_cons, List.flatten_cons, bytesAt_eq_nil hf, List.nil_append,
        List.filter_cons_of_neg (by simp [hf]), ih]

theorem filter_insertionSort (p : String → Bool) (l : List String) :
    (List.insertionSort (fun x y : String => x ≤ y) l).filter p
      = List.insertionSort (fun x y : String => x ≤ y) (l.filter p) := by
  exact @List.eq_of_perm_of_sorted String (fun x y : String => x ≤ y) _ _ _
    (((List.perm_insertionSort _ l).filter p).trans
      (List.perm_insertionSort _ (l.filter p)).symm)
    (List.Pairwise.filter p (List.sorted_insertionSort _ l))
    (List.sorted_insertionSort _ _)

theorem isFileAt_cons_ne {k : String} {e : FEntry} {rest : List (String × FEntry)} {n : String}
    (h : ¬ k = n) : isFileAt ((k, e) :: rest) n = isFileAt rest n := by
  unfold isFileAt
  simp only [olookup, if_neg h]

theorem fileEntriesOf_keys : ∀ entries : List (String × FEntry),
    (entries.map Prod.fst).Nodup →
    (fileEntriesOf entries).map Prod.fst
      = (entries.map Prod.fst).filter (fun n => isFileAt entries n) := by
  intro entries
  induction entries with
  | nil => intro _; rfl
  | cons kv rest ih =>
    intro hnd
    obtain ⟨k, e⟩ := kv
    simp only [List.map_cons, List.nodup_cons] at hnd
    have hcong : (rest.map Prod.fst).filter (fun n => isFileAt ((k, e) :: rest) n)
        = (rest.map Prod.fst).filter (fun n => isFileAt rest n) := by
      apply List.filter_congr
      intro n hn
      exact isFileAt_cons_ne (fun hk => hnd.1 (hk ▸ hn))
    cases e with
    | file bs =>
      have hpk : isFileAt ((k, FEntry.file bs) :: rest) k = true := by
        unfold isFileAt olookup
        rw [if_pos rfl]
      show ((k, bs) :: fileEntriesOf rest).map Prod.fst = _
      rw [List.map_cons, List.map_cons, List.filter_cons_of_pos hpk, hcong, ih hnd.2]
    | subdir =>
      have hpk : isFileAt ((k, FEntry.subdir) :: rest) k = false := by
        unfold isFileAt olookup
        rw [if_pos rfl]
      show (fileEntriesOf rest).map Prod.fst = _
      rw [List.map_cons, List.filter_cons_of_neg (by simp [hpk]), hcong, ih hnd.2]

theorem mem_fileEntriesOf_keys {l : List (String × FEntry)} {kv : String × List Nat}
    (h : kv ∈ fileEntriesOf l) : kv.1 ∈ l.map Prod.fst := by
  induction l with
  | nil => cases h
  | cons kv0 rest ih =>
    obtain ⟨k, e⟩ := kv0
    cases e with
    | file bs =>
      have h' : kv ∈ (k, bs) :: fileEntriesOf rest := h
      rcases List.mem_cons.mp h' with h2 | h2
      · rw [List.map_cons, h2]
        exact List.mem_cons_self _ _
      · exact List.mem_cons_of_mem _ (ih h2)
    | subdir => exact List.mem_cons_of_mem _ (ih h)

theorem olookup_fileEntriesOf : ∀ entries : List (String × FEntry),
    (entries.map Prod.fst).Nodup → ∀ n,
    (olookup (fileEntriesOf entries) n).getD [] = bytesAt entries n := by
  intro entries
  induction entries with
  | nil => intro _ n; rfl
  | cons kv rest ih =>
    intro hnd n
    obtain ⟨k, e⟩ := kv
    simp only [List.map_cons, List.nodup_cons] at hnd
    by_cases hk : k = n
    · subst hk
      cases e with
      | file bs => simp [olookup, bytesAt]
      | subdir =>
        have hnone : olookup (fileEntriesOf rest) k = none := by
          rw [olookup_eq_none]
          intro kv hm hk1
          exact hnd.1 (hk1 ▸ mem_fileEntriesOf_keys hm)
        show (olookup (fileEntriesOf rest) k).getD [] = _
        rw [hnone]
        simp [bytesAt, olookup]
    · cases e with
      | file bs =>
        show (olookup ((k, bs) :: fileEntriesOf rest) n).getD [] = _
        rw [show olookup ((k, bs) :: fileEntriesOf rest) n = olookup (fileEntriesOf rest) n from by
          simp only [olookup, if_neg hk]]
        rw [show bytesAt ((k, FEntry.file bs) :: rest) n = bytesAt rest n from by
          unfold bytesAt; simp only [olookup, if_neg hk]]
        exact ih hnd.2 n
      | subdir =>
        show (olookup (fileEntriesOf rest) n).getD [] = _
        rw [show bytesAt ((k, FEntry.subdir) :: rest) n = bytesAt rest n from by
          unfold bytesAt; simp only [olookup, if_neg hk]]
        exact ih hnd.2 n

theorem olookup_of_mem_nodup {α : Type} {l : List (String × α)} {k : String} {v : α}
    (hnd : (l.map Prod.fst).Nodup) (hm : (k, v) ∈ l) : olookup l k = some v := by
  induction l with
  | nil => cases hm
  | cons kv rest ih =>
    obtain ⟨k0, v0⟩ := kv
    simp only [List.map_cons, List.nodup_cons] at hnd
    rcases List.mem_cons.mp hm with h | h
    · cases h
      unfold olookup
      rw [if_pos rfl]
    · by_cases hk : k0 = k
      · subst hk
        exact absurd (List.mem_map_of_mem Prod.fst h) hnd.1
      · unfold olookup
        rw [if_neg hk]
        exact ih hnd.2 h

theorem olookup_perm {α : Type} {l l' : List (String × α)} (hp : l.Perm l')
    (hnd : (l.map Prod.fst).Nodup) (k : String) : olookup l k = olookup l' k := by
  have hnd' : (l'.map Prod.fst).Nodup := ((hp.map Prod.fst).nodup_iff).mp hnd
  cases h : olookup l k with
  | some v => exact (olookup_of_mem_nodup hnd' (hp.mem_iff.mp (olookup_mem h))).symm
  | none =>
    symm
    rw [olookup_eq_none] at h ⊢
    intro kv hm
    exact h kv (hp.mem_iff.mpr hm)

theorem fileEntriesOf_eq_filterMap (l : List (String × FEntry)) :
    fileEntriesOf l = l.filterMap (fun kv =>
      match kv.2 with
      | FEntry.file bs => some (kv.1, bs)
      | FEntry.subdir => none) := by
  induction l with
  | nil => rfl
  | cons kv rest ih =>
    obtain ⟨k, e⟩ := kv
    cases e with
    | file bs => exact congrArg (fun t => (k, bs) :: t) ih
    | subdir => exact ih

theorem codeHashSpecOf_perm {entries entries' : List (String × FEntry)}
    (hp : entries.Perm entries') (hnd : (entries.map Prod.fst).Nodup) :
    codeHashSpecOf entries = codeHashSpecOf entries' := by
  have hpf : (fileEntriesOf entries).Perm (fileEntriesOf entries') := by
    rw [fileEntriesOf_eq_filterMap, fileEntriesOf_eq_filterMap]
    exact hp.filterMap _
  have hndf : ((fileEntriesOf entries).map Prod.fst).Nodup := by
    rw [fileEntriesOf_keys entries hnd]
    exact List.Nodup.filter _ hnd
  have hkeys : List.insertionSort (fun x y : String => x ≤ y) ((fileEntriesOf entries).map Prod.fst)
      = List.insertionSort (fun x y : String => x ≤ y) ((fileEntriesOf entries').map Prod.fst) := by
    exact @List.eq_of_perm_of_sorted String (fun x y : String => x ≤ y) _ _ _
      ((List.perm_insertionSort _ _).trans ((hpf.map Prod.fst).trans
        (List.perm_insertionSort _ _).symm))
      (List.sorted_insertionSort _ _)
      (List.sorted_insertionSort _ _)
  unfold codeHashSpecOf
  rw [← hkeys]
  congr 1
  congr 1
  apply List.map_congr_left
  intro n hn
  rw [olookup_perm hpf hndf n]

theorem model_code_hash_eq_spec {fs : FS} {dir : String} {entries : List (String × FEntry)}
    (h : fs.dirs dir = some entries) (hnd : (entries.map Prod.fst).Nodup) :
    model_code_hash fs dir = codeHashSpecOf entries := by
  unfold model_code_hash
  rw [h]
  show sha1Hex ((List.insertionSort (fun x y : String => x ≤ y) (entries.map Prod.fst)).foldl
      (fun acc fn =>
        match olookup entries fn with
        | some (FEntry.file bs) => acc ++ bs
        | _ => acc) []) = codeHashSpecOf entries
  rw [fold_hash_flatten entries _ []]
  rw [List.nil_append]
  rw [flatten_map_filter]
  rw [filter_insertionSort]
  rw [← fileEntriesOf_keys entries hnd]
  unfold codeHashSpecOf
  congr 1
  congr 1
  apply List.map_congr_left
  intro n hn
  exact (olookup_fileEntriesOf entries hnd n).symm

set_option maxRecDepth 100000 in
/-- C5: the source hash of a missing directory is the SHA-1 of empty
input; for a listing with distinct names it hashes exactly the regular
files directly in the directory, bytes concatenated in lexicographically
sorted filename order (subdirectories ignored); and it is invariant under
the enumeration order of the listing. -/
theorem source_hash_spec :
    (∀ fs : FS, ∀ dir : String, fs.dirs dir = none →
       model_code_hash fs dir = "da39a3ee5e6b4b0d3255bfef95601890afd80709") ∧
    (∀ fs : FS, ∀ dir : String, ∀ entries, fs.dirs dir = some entries →
       (entries.map Prod.fst).Nodup →
       model_code_hash fs dir = codeHashSpecOf entries) ∧
    (∀ fs fs' : FS, ∀ dir dir' : String, ∀ entries entries',
       fs.dirs dir = some entries → fs'.dirs dir' = some entries' →
       entries.Perm entries' → (entries.map Prod.fst).Nodup →
       model_code_hash fs dir = model_code_hash fs' dir') := by
  refine ⟨?_, ?_, ?_⟩
  · intro fs dir h
    unfold model_code_hash
    rw [h]
    decide
  · intro fs dir entries h hnd
    exact model_code_hash_eq_spec h hnd
  · intro fs fs' dir dir' entries entries' h h' hp hnd
    rw [model_code_hash_eq_spec h hnd,
        model_code_hash_eq_spec h' (((hp.map Prod.fst).nodup_iff).mp hnd)]
    exact codeHashSpecOf_perm hp hnd

/-- C5 witness: the three source-hash facts at concrete directories. -/
theorem source_hash_spec_inst :
    model_code_hash fsEmpty "anywhere" = "da39a3ee5e6b4b0d3255bfef95601890afd80709" ∧
    model_code_hash fsAll "t/proj/m/model"
      = codeHashSpecOf [("b.py", FEntry.file [10, 20]), ("sub", FEntry.subdir)] ∧
    model_code_hash fsAll "t/proj/m/model" = model_code_hash fsPerm "t/proj/m/model" :=
  ⟨source_hash_spec.1 fsEmpty "anywhere" rfl,
   source_hash_spec.2.1 fsAll "t/proj/m/model" [("b.py", FEntry.file [10, 20]), ("sub", FEntry.subdir)]
     rfl (by decide),
   source_hash_spec.2.2 fsAll fsPerm "t/proj/m/model" "t/proj/m/model"
     [("b.py", FEntry.file [10, 20]), ("sub", FEntry.subdir)]
     [("sub", FEntry.subdir), ("b.py", FEntry.file [10, 20])]
     rfl rfl (by decide) (by decide)⟩

